import Mathlib

/-!
Verification development for the proxmox-tui cluster data plane.

This file gives a shallow embedding, in Lean 4, of the parts of the Go
source that the checked properties speak about:

* the cluster aggregator (`getClusterBasicStatus`, `enrichNodeStatuses`,
  `updateNodeMetrics`, `processClusterResources`, `calculateClusterTotals`,
  `GetClusterStatus`, `FastGetClusterStatus`),
* the guest enricher (`GetVmStatus`, `populateConfiguredMACs`,
  `GetDetailedVmInfo`, `isValidIP`, `EnrichVMs`),
* the guest list widget (`VMList.SetVMs`).

Modelling conventions:

* Go `float64` is modelled as `Rat`; `int`/`int64` as `Int`.  The Go
  conversion `int64(f)` truncates toward zero, modelled by `goInt64OfFloat`.
* Go strings are modelled as Lean `String`, manipulated through their
  character lists; the strings involved are ASCII so Go's byte-oriented
  `len`, indexing and `strings.ToUpper` coincide with the character-level
  model used here.
* Go `map[string]interface{}` values decoded from JSON are modelled by the
  inductive `JValue`; an object is an association list (JSON objects from
  the Proxmox API carry distinct keys).  A Go `map[string]bool` used as a
  set (the configured-MAC set) is modelled by `Option (List String)`:
  `none` is the nil map, `some l` a non-nil map whose keys are `l`.
* every HTTP fetch is a suspension point; each fetch is modelled by an
  oracle value `Except String _` provided up front (`VMEnv`, `ApiEnv`).
  Concurrent fan-out loops whose merges act on disjoint nodes/guests are
  modelled by sequential folds, which is observationally equivalent.
-/

namespace ProxmoxTui

/-! ## Go string primitives (character-level model) -/

/-- ASCII upper-casing of one character, as Go's `strings.ToUpper` acts on
the ASCII strings handled here (code points 97 to 122 shift down by 32). -/
def goToUpperChar (c : Char) : Char :=
  if 97 ≤ c.toNat ∧ c.toNat ≤ 122 then Char.ofNat (c.toNat - 32) else c

/-- Go `strings.ToUpper`. -/
def goToUpper (s : String) : String :=
  String.mk (s.data.map goToUpperChar)

/-- Go `strings.HasPrefix`. -/
def goStartsWith (s p : String) : Bool :=
  p.data.isPrefixOf s.data

/-- Go `strings.Count` with a single-character separator. -/
def goCountChar (s : String) (c : Char) : Nat :=
  s.data.count c

/-- Go `strings.Split` with a single-character separator. -/
def goSplitChar (s : String) (sep : Char) : List String :=
  (s.data.splitOn sep).map String.mk

/-- Substring test on character lists (Go `strings.Contains`). -/
def listHasSub : List Char → List Char → Bool
  | l, sub =>
    match l with
    | [] => sub.isEmpty
    | _ :: t => sub.isPrefixOf l || listHasSub t sub

/-- Go `strings.Contains`. -/
def goContainsSub (s sub : String) : Bool :=
  listHasSub s.data sub.data

/-- Go `strings.TrimPrefix`. -/
def goTrimAtStart (s p : String) : String :=
  if goStartsWith s p then String.mk (s.data.drop p.data.length) else s

/-- Go `strings.SplitN (s, sep, 2)` reported as the part before the first
separator and, when the separator occurs, the part after it. -/
def goSplitFirst (s : String) (sep : Char) : String × Option String :=
  match s.data.findIdx? (fun c => c = sep) with
  | none => (s, none)
  | some i => (String.mk (s.data.take i), some (String.mk (s.data.drop (i + 1))))

/-- Go `strings.Index (s, sep) ` for a single character: index of the first
occurrence, if any. -/
def goIndexChar (s : String) (sep : Char) : Option Nat :=
  s.data.findIdx? (fun c => c = sep)

/-- Go `int64(f)` on a `float64`: truncation toward zero. -/
def goInt64OfFloat (q : Rat) : Int :=
  q.num.tdiv (q.den : Int)

/-! ## Generic JSON trees

The HTTP client decodes every response into a generic JSON tree
(`map[string]interface{}` at the top); the aggregator pattern-matches the
tree through small typed accessors. -/

/-- A decoded JSON value.  Numbers decode to Go `float64`, modelled as
`Rat`; objects are association lists. -/
inductive JValue where
  | null
  | bool (b : Bool)
  | num (q : Rat)
  | str (s : String)
  | arr (items : List JValue)
  | obj (fields : List (String × JValue))
deriving Repr

/-- Look a key up in a decoded JSON object. -/
def jLookup (m : List (String × JValue)) (k : String) : Option JValue :=
  (m.find? (fun p => p.1 = k)).map Prod.snd

/-- Modelled from the spec: the aggregator's `getString` accessor over a
decoded JSON object (the helper itself is not part of the provided
sources); a missing or non-string value yields the empty string. -/
def getString (m : List (String × JValue)) (k : String) : String :=
  match jLookup m k with
  | some (.str s) => s
  | _ => ""

/-- Modelled from the spec: the aggregator's `getFloat` accessor; a missing
or non-numeric value yields zero. -/
def getFloat (m : List (String × JValue)) (k : String) : Rat :=
  match jLookup m k with
  | some (.num q) => q
  | _ => 0

/-- Modelled from the spec: the aggregator's `getInt` accessor, the
truncation of `getFloat` (JSON numbers decode as `float64`). -/
def getInt (m : List (String × JValue)) (k : String) : Int :=
  goInt64OfFloat (getFloat m k)

/-- Modelled from the spec: the aggregator's `getBool` accessor, accepting
the encodings the Proxmox API uses for flags. -/
def getBool (m : List (String × JValue)) (k : String) : Bool :=
  match jLookup m k with
  | some (.bool b) => b
  | some (.num q) => decide (q ≠ 0)
  | some (.str s) => s == "1" || s == "true"
  | _ => false

/-- Extract the fields of the decoded object stored under `data`, the shape
`data, ok := res["data"].(map[string]interface{})` tests for. -/
def jDataObj (res : JValue) : Option (List (String × JValue)) :=
  match res with
  | .obj fields =>
    match jLookup fields "data" with
    | some (.obj m) => some m
    | _ => none
  | _ => none

/-- Extract the array stored under `data`, the shape
`data, ok := res["data"].([]interface{})` tests for. -/
def jDataArr (res : JValue) : Option (List JValue) :=
  match res with
  | .obj fields =>
    match jLookup fields "data" with
    | some (.arr items) => some items
    | _ => none
  | _ => none

/-! ## Data model (`pkg/api` structures) -/

/-- CPU info record of a node. -/
structure CPUInfo where
  model : String := ""
  cores : Int := 0
  sockets : Int := 0
deriving Repr, DecidableEq

/-- One IP address reported by a guest agent, tagged `ipv4` or `ipv6`. -/
structure IPAddress where
  ipType : String := ""
  address : String := ""
deriving Repr, DecidableEq

/-- A guest network interface as reported by the guest agent. -/
structure NetworkInterface where
  name : String := ""
  macAddress : String := ""
  ipAddresses : List IPAddress := []
  isLoopback : Bool := false
deriving Repr, DecidableEq

/-- Filesystem information from the QEMU guest agent (`vm.go`). -/
structure Filesystem where
  name : String := ""
  mountpoint : String := ""
  fsType : String := ""
  totalBytes : Int := 0
  usedBytes : Int := 0
  device : String := ""
  isRoot : Bool := false
  isSystemDrive : Bool := false
deriving Repr, DecidableEq

/-- A storage entry attached to a node (`processClusterResources`). -/
structure Storage where
  id : String := ""
  name : String := ""
  content : String := ""
  disk : Int := 0
  maxDisk : Int := 0
  node : String := ""
  plugintype : String := ""
  status : String := ""
  shared : Int := 0
  storageType : String := ""
deriving Repr, DecidableEq

/-- A Proxmox VM or container (`VM` in `vm.go`).  `configuredMACs` models
the Go `map[string]bool` set: `none` is the nil map. -/
structure VM where
  id : Int := 0
  name : String := ""
  node : String := ""
  vmType : String := ""
  status : String := ""
  ip : String := ""
  cpu : Rat := 0
  mem : Int := 0
  maxMem : Int := 0
  disk : Int := 0
  maxDisk : Int := 0
  uptime : Int := 0
  diskRead : Int := 0
  diskWrite : Int := 0
  netIn : Int := 0
  netOut : Int := 0
  haState : String := ""
  lock : String := ""
  tags : String := ""
  template : Bool := false
  pool : String := ""
  agentEnabled : Bool := false
  agentRunning : Bool := false
  netInterfaces : List NetworkInterface := []
  filesystems : List Filesystem := []
  configuredMACs : Option (List String) := none
  enriched : Bool := false
deriving Repr, DecidableEq

/-- A hypervisor node.  The metrics timestamp is modelled as a set-flag. -/
structure Node where
  id : String := ""
  name : String := ""
  ip : String := ""
  online : Bool := false
  version : String := ""
  kernelVersion : String := ""
  cpuCount : Rat := 0
  cpuUsage : Rat := 0
  memoryTotal : Rat := 0
  memoryUsed : Rat := 0
  totalStorage : Int := 0
  usedStorage : Int := 0
  uptime : Int := 0
  cpuInfo : CPUInfo := {}
  loadAvg : List String := []
  storage : Option Storage := none
  vms : List VM := []
  lastMetricsUpdate : Bool := false
deriving Repr, DecidableEq

/-- Modelled from the spec: the storage deduplicator state (`StorageManager`,
not part of the provided sources).  It records, in arrival order, the
storage entries that contribute to cluster-wide totals. -/
structure StorageManager where
  entries : List Storage := []
deriving Repr, DecidableEq

/-- Aggregated cluster metrics (`Cluster` in the aggregator). -/
structure Cluster where
  name : String := ""
  version : String := ""
  quorate : Bool := false
  totalNodes : Int := 0
  onlineNodes : Int := 0
  totalCPU : Rat := 0
  cpuUsage : Rat := 0
  memoryTotal : Rat := 0
  memoryUsed : Rat := 0
  storageTotal : Int := 0
  storageUsed : Int := 0
  nodes : List Node := []
  storageManager : StorageManager := {}
deriving Repr, DecidableEq

/-- String constants from `constants.go`. -/
def VMTypeQemu : String := "qemu"

/-- String constant `VMTypeLXC` from `constants.go`. -/
def VMTypeLXC : String := "lxc"

/-- String constant `VMStatusRunning` from `constants.go`. -/
def VMStatusRunning : String := "running"

/-- String constant `IPTypeIPv4` from `constants.go`. -/
def IPTypeIPv4 : String := "ipv4"

/-- String constant `IPTypeIPv6` from `constants.go`. -/
def IPTypeIPv6 : String := "ipv6"

/-- String constant `StringTrue` from `constants.go`. -/
def StringTrue : String := "true"

/-! ## Configured-MAC extraction (`populateConfiguredMACs`, `vm.go`) -/

/-- The key test `strings.HasPrefix(k, "net") && len(k) > 3 && k[3] >= '0'
&& k[3] <= '9'` of `populateConfiguredMACs`. -/
def isNetConfigKey (k : String) : Bool :=
  match k.data with
  | 'n' :: 'e' :: 't' :: d :: _ => d.isDigit
  | _ => false

/-- The MAC candidate one comma-separated config part yields: the `hwaddr=`
branch, the `<model>=MAC` branch, or the bare-MAC branch. -/
def macCandidate (part : String) : String :=
  if goStartsWith part "hwaddr=" then goToUpper (goTrimAtStart part "hwaddr=")
  else
    match goSplitFirst part '=' with
    | (_, some rest) =>
      if rest.length = 17 ∧ goCountChar rest ':' = 5 then goToUpper rest else ""
    | (_, none) =>
      if part.length = 17 ∧ goCountChar part ':' = 5 then goToUpper part else ""

/-- The final guard before a candidate is stored. -/
def macAccepted (cand : String) : Bool :=
  cand ≠ "" ∧ cand.length = 17 ∧ goCountChar cand ':' = 5

/-- The inner loop of `populateConfiguredMACs`: the first part of a `netN`
config string whose candidate passes the final guard (the loop breaks after
storing one MAC per device). -/
def netEntryMAC (netStr : String) : Option String :=
  (goSplitChar netStr ',').findSome? (fun part =>
    let cand := macCandidate part
    if macAccepted cand then some cand else none)

/-- Set insertion into the modelled `map[string]bool`. -/
def macInsert (l : List String) (m : String) : List String :=
  if l.contains m then l else l ++ [m]

/-- The key set `populateConfiguredMACs` builds from a decoded guest
config: one MAC at most per `netN` key, inserted into the set. -/
def populateMACsList (configData : List (String × JValue)) : List String :=
  configData.foldl (fun acc kv =>
    if isNetConfigKey kv.1 then
      match kv.2 with
      | .str netStr =>
        match netEntryMAC netStr with
        | some mac => macInsert acc mac
        | none => acc
      | _ => acc
    else acc) []

/-- `populateConfiguredMACs` always replaces the set with a fresh, non-nil
map built from the config. -/
def populateConfiguredMACs (vm : VM) (configData : List (String × JValue)) : VM :=
  { vm with configuredMACs := some (populateMACsList configData) }

/-- Reading the `agent` flag from a decoded config.  Go's type switch
handles `bool`, `int` and `string`; a JSON-decoded number is a `float64`,
so the `int` case never fires and a numeric value leaves the flag
unchanged. -/
def agentEnabledOfConfig (current : Bool) (configData : List (String × JValue)) : Bool :=
  match jLookup configData "agent" with
  | some (.bool b) => b
  | some (.str s) => s == "1" || s == StringTrue
  | _ => current

/-- Reading the `template` flag in `GetDetailedVmInfo`; same type-switch
shape as the `agent` flag. -/
def templateOfConfig (current : Bool) (configData : List (String × JValue)) : Bool :=
  match jLookup configData "template" with
  | some (.bool b) => b
  | some (.str s) => s == "1" || s == "true"
  | _ => current

/-! ## Interface filtering (`GetVmStatus`, `vm.go`) -/

/-- Membership in the modelled `map[string]bool` (a missing key and a nil
map both read `false`). -/
def macSetHasKey (macs : Option (List String)) (m : String) : Bool :=
  (macs.getD []).contains m

/-- Go `len` of the modelled `map[string]bool` (nil has length 0). -/
def macSetLen (macs : Option (List String)) : Nat :=
  (macs.getD []).length

/-- The best-IP selection of `GetVmStatus`: first IPv4-typed address,
otherwise first IPv6-typed address, otherwise literally the first address;
an empty list stays empty. -/
def selectBestIP (ips : List IPAddress) : List IPAddress :=
  match ips.find? (fun ip => ip.ipType == IPTypeIPv4) with
  | some best => [best]
  | none =>
    match ips with
    | [] => []
    | first :: _ =>
      match ips.find? (fun ip => ip.ipType == IPTypeIPv6) with
      | some best => [best]
      | none => [first]

/-- The QEMU keep condition: not loopback, name not starting with `veth`,
and the configured-MAC map is nil or has the upper-cased MAC as a key. -/
def keepQemuInterface (macs : Option (List String)) (iface : NetworkInterface) : Bool :=
  !iface.isLoopback && !(goStartsWith iface.name "veth") &&
    (macs.isNone || macSetHasKey macs (goToUpper iface.macAddress))

/-- The QEMU interface loop: keep the interfaces passing
`keepQemuInterface`, each reduced to its best IP. -/
def filterQemuInterfaces (macs : Option (List String)) (raw : List NetworkInterface) :
    List NetworkInterface :=
  raw.filterMap (fun iface =>
    if keepQemuInterface macs iface then
      some { iface with ipAddresses := selectBestIP iface.ipAddresses }
    else none)

/-- The LXC keep condition: not loopback, and when the configured-MAC map
is non-empty (`len > 0`), the upper-cased MAC must be a key. -/
def keepLxcInterface (macs : Option (List String)) (iface : NetworkInterface) : Bool :=
  !iface.isLoopback &&
    (decide (macSetLen macs = 0) || macSetHasKey macs (goToUpper iface.macAddress))

/-- The LXC interface loop. -/
def filterLxcInterfaces (macs : Option (List String)) (raw : List NetworkInterface) :
    List NetworkInterface :=
  raw.filterMap (fun iface =>
    if keepLxcInterface macs iface then
      some { iface with ipAddresses := selectBestIP iface.ipAddresses }
    else none)

/-- Modelled from the spec: `GetFirstNonLoopbackIP` (declared outside the
provided sources) returns the first address of a non-loopback interface,
restricted to IPv4 when the flag is set, or the empty string. -/
def GetFirstNonLoopbackIP (ifaces : List NetworkInterface) (requireIPv4 : Bool) : String :=
  match ifaces.findSome? (fun iface =>
    if iface.isLoopback then none
    else iface.ipAddresses.findSome? (fun ip =>
      if !requireIPv4 || ip.ipType == IPTypeIPv4 then some ip.address else none)) with
  | some a => a
  | none => ""

/-! ## Filesystem filtering (`GetVmStatus`, `vm.go`) -/

/-- The filesystem filter of `GetVmStatus` as a keep predicate; each `false`
branch is one of the `continue` cases of the source loop. -/
def keepFilesystem (fs : Filesystem) : Bool :=
  if goStartsWith fs.mountpoint "/snap" || goStartsWith fs.mountpoint "/run" ||
      goStartsWith fs.mountpoint "/sys" || goStartsWith fs.mountpoint "/proc" ||
      goStartsWith fs.mountpoint "/dev" || goContainsSub fs.mountpoint "snap/" then false
  else if goContainsSub fs.mountpoint "\\Containers\\" ||
      goContainsSub fs.mountpoint "/Containers/" ||
      goContainsSub fs.mountpoint "\\WindowsApps\\" ||
      goContainsSub fs.mountpoint "\\WpSystem\\" ||
      goContainsSub fs.mountpoint "\\Config.Msi" then false
  else if goContainsSub fs.mountpoint "\x7b" && goContainsSub fs.mountpoint "\x7d" &&
      fs.mountpoint.length > 50 then false
  else if fs.totalBytes == 0 then false
  else if fs.totalBytes < 50 * 1024 * 1024 then false
  else if fs.fsType == "tmpfs" || fs.fsType == "devtmpfs" || fs.fsType == "proc" ||
      fs.fsType == "sysfs" || fs.fsType == "devpts" || fs.fsType == "cgroup" ||
      fs.fsType == "configfs" || fs.fsType == "debugfs" || fs.fsType == "mqueue" ||
      fs.fsType == "hugetlbfs" || fs.fsType == "securityfs" || fs.fsType == "pstore" ||
      fs.fsType == "autofs" || fs.fsType == "UDF" then false
  else true

/-! ## Guest status enrichment (`GetVmStatus`, `vm.go`) -/

/-- The oracle for the suspension points one `GetVmStatus` call may hit:
status fetch, config fetch, guest-agent interface and filesystem queries,
and the LXC interface query. -/
structure VMEnv where
  status : Except String JValue
  config : Except String JValue
  agentInterfaces : Except String (List NetworkInterface)
  lxcInterfaces : Except String (List NetworkInterface)
  agentFilesystems : Except String (List Filesystem)

/-- The `cpu` value after the status block (`vm.CPU = cpuFloat` when the
field is a number, otherwise unchanged). -/
def cpuOf (vm : VM) (data : List (String × JValue)) : Rat :=
  match jLookup data "cpu" with
  | some (.num q) => q
  | _ => vm.cpu

/-- The `mem` value after the status block. -/
def memOf (vm : VM) (data : List (String × JValue)) : Int :=
  match jLookup data "mem" with
  | some (.num q) => goInt64OfFloat q
  | _ => vm.mem

/-- The `maxmem` value after the status block. -/
def maxMemOf (vm : VM) (data : List (String × JValue)) : Int :=
  match jLookup data "maxmem" with
  | some (.num q) => goInt64OfFloat q
  | _ => vm.maxMem

/-- The `disk` value after the guarded update of `GetVmStatus`: taken from
the response only when present and positive.  In the source the pre-call
snapshot is restored when the value was not taken, but the field has not
been written in that case, so the restore is the identity and the guarded
update collapses to this. -/
def diskValOf (vm : VM) (data : List (String × JValue)) : Int :=
  match jLookup data "disk" with
  | some (.num q) => if q > 0 then goInt64OfFloat q else vm.disk
  | _ => vm.disk

/-- The `maxdisk` value after the guarded update of `GetVmStatus`. -/
def maxDiskValOf (vm : VM) (data : List (String × JValue)) : Int :=
  match jLookup data "maxdisk" with
  | some (.num q) => if q > 0 then goInt64OfFloat q else vm.maxDisk
  | _ => vm.maxDisk

/-- The `diskread` value after the status block. -/
def diskReadOf (vm : VM) (data : List (String × JValue)) : Int :=
  match jLookup data "diskread" with
  | some (.num q) => goInt64OfFloat q
  | _ => vm.diskRead

/-- The `diskwrite` value after the status block. -/
def diskWriteOf (vm : VM) (data : List (String × JValue)) : Int :=
  match jLookup data "diskwrite" with
  | some (.num q) => goInt64OfFloat q
  | _ => vm.diskWrite

/-- The `netin` value after the status block. -/
def netInOf (vm : VM) (data : List (String × JValue)) : Int :=
  match jLookup data "netin" with
  | some (.num q) => goInt64OfFloat q
  | _ => vm.netIn

/-- The `netout` value after the status block. -/
def netOutOf (vm : VM) (data : List (String × JValue)) : Int :=
  match jLookup data "netout" with
  | some (.num q) => goInt64OfFloat q
  | _ => vm.netOut

/-- The `uptime` value after the status block. -/
def uptimeOf (vm : VM) (data : List (String × JValue)) : Int :=
  match jLookup data "uptime" with
  | some (.num q) => goInt64OfFloat q
  | _ => vm.uptime

/-- The numeric-field block of `GetVmStatus`: the sequential guarded
assignments of the source touch pairwise distinct fields, so they are one
simultaneous update of the fields from the decoded `data` object. -/
def applyStatusFields (vm : VM) (data : List (String × JValue)) : VM :=
  { vm with cpu := cpuOf vm data, mem := memOf vm data, maxMem := maxMemOf vm data,
            disk := diskValOf vm data, maxDisk := maxDiskValOf vm data,
            diskRead := diskReadOf vm data, diskWrite := diskWriteOf vm data,
            netIn := netInOf vm data, netOut := netOutOf vm data,
            uptime := uptimeOf vm data }

/-- The QEMU config step: on a successful fetch with an object `data`
field, rebuild the configured-MAC set and read the `agent` flag. -/
def qemuApplyConfig (env : VMEnv) (vm : VM) : VM :=
  match env.config with
  | .ok res =>
    match jDataObj res with
    | some configData =>
      let vm := populateConfiguredMACs vm configData
      { vm with agentEnabled := agentEnabledOfConfig vm.agentEnabled configData }
    | none => vm
  | .error _ => vm

/-- The LXC config step: only the configured-MAC set is rebuilt. -/
def lxcApplyConfig (env : VMEnv) (vm : VM) : VM :=
  match env.config with
  | .ok res =>
    match jDataObj res with
    | some configData => populateConfiguredMACs vm configData
    | none => vm
  | .error _ => vm

/-- The failure path of the QEMU agent branch: agent flagged not running,
interfaces cleared, and the IP cleared only when the configured-MAC set is
empty (`len(vm.ConfiguredMACs) == 0`). -/
def agentFailFallback (vm : VM) : VM :=
  let vm := { vm with agentRunning := false, netInterfaces := [] }
  if macSetLen vm.configuredMACs = 0 then { vm with ip := "" } else vm

/-- The QEMU agent branch of `GetVmStatus`: on a successful, non-empty
interface reply, filter interfaces, maybe adopt a guest IP, then fetch and
filter filesystems and override the disk pair with their sums when the
filtered total is positive. -/
def qemuAgentEnrich (env : VMEnv) (vm : VM) : VM :=
  match env.agentInterfaces with
  | .ok raw =>
    if raw.length > 0 then
      let vm := { vm with agentRunning := true,
                          netInterfaces := filterQemuInterfaces vm.configuredMACs raw }
      let vm := if vm.ip = "" ∧ vm.netInterfaces.length > 0 then
          { vm with ip := GetFirstNonLoopbackIP vm.netInterfaces true }
        else vm
      match env.agentFilesystems with
      | .ok filesystems =>
        if filesystems.length > 0 then
          let filtered := filesystems.filter keepFilesystem
          let vm := { vm with filesystems := filtered }
          let totalDiskSpace := (filtered.map Filesystem.totalBytes).sum
          let usedDiskSpace := (filtered.map Filesystem.usedBytes).sum
          if totalDiskSpace > 0 then
            { vm with maxDisk := totalDiskSpace, disk := usedDiskSpace }
          else vm
        else vm
      | .error _ => vm
    else agentFailFallback vm
  | .error _ => agentFailFallback vm

/-- The LXC branch of `GetVmStatus` after the config step: an interface
query error behaves as an empty reply; the failure path clears interfaces
and conditionally the IP but never touches the agent flag. -/
def lxcAgentEnrich (env : VMEnv) (vm : VM) : VM :=
  let raw := match env.lxcInterfaces with
    | .ok l => l
    | .error _ => []
  if raw.length > 0 then
    let vm := { vm with netInterfaces := filterLxcInterfaces vm.configuredMACs raw }
    if vm.ip = "" ∧ vm.netInterfaces.length > 0 then
      { vm with ip := GetFirstNonLoopbackIP vm.netInterfaces true }
    else vm
  else
    let vm := { vm with netInterfaces := [] }
    if macSetLen vm.configuredMACs = 0 then { vm with ip := "" } else vm

/-- `GetVmStatus`: the status fetch and its `data` object are required; the
rest is best-effort.  On the error paths the caller's guest is unchanged,
matching the in-place Go mutation that has not happened yet. -/
def getVmStatus (env : VMEnv) (vm : VM) : Except String VM :=
  match env.status with
  | .error e => .error e
  | .ok res =>
    match jDataObj res with
    | none => .error "unexpected format for VM status"
    | some data =>
      let vm := applyStatusFields vm data
      let vm :=
        if vm.vmType = VMTypeQemu ∧ vm.status = VMStatusRunning then
          let vm := qemuApplyConfig env vm
          if vm.agentEnabled then qemuAgentEnrich env vm
          else { vm with agentRunning := false, netInterfaces := [] }
        else if vm.vmType = VMTypeLXC ∧ vm.status = VMStatusRunning then
          lxcAgentEnrich env (lxcApplyConfig env vm)
        else vm
      .ok { vm with enriched := true }

/-- One `EnrichVMs` worker step: snapshot the disk pair, run
`GetVmStatus` (an error leaves the guest as it was), then restore either
value from the snapshot when it is zero afterwards. -/
def enrichWorkerStep (env : VMEnv) (vm : VM) : VM × Option String :=
  let diskUsage := vm.disk
  let maxDiskUsage := vm.maxDisk
  let pair := match getVmStatus env vm with
    | .ok v => (v, (none : Option String))
    | .error e => (vm, some e)
  let vm1 := pair.1
  let vm1 := if vm1.disk = 0 ∧ diskUsage > 0 then { vm1 with disk := diskUsage } else vm1
  let vm1 := if vm1.maxDisk = 0 ∧ maxDiskUsage > 0 then { vm1 with maxDisk := maxDiskUsage } else vm1
  (vm1, pair.2)

/-! ## IP parsing (`isValidIP`, `net.ParseIP`) -/

/-- Value of one hexadecimal digit. -/
def hexDigitVal (c : Char) : Option Nat :=
  if c.isDigit then some (c.toNat - 48)
  else if 'a' ≤ c ∧ c ≤ 'f' then some (c.toNat - 87)
  else if 'A' ≤ c ∧ c ≤ 'F' then some (c.toNat - 55)
  else none

/-- One dotted-decimal IPv4 field: digits only, non-empty, no leading zero,
value at most 255 (the checks of the stdlib IPv4 parser). -/
def validIPv4Field (f : List Char) : Bool :=
  !f.isEmpty && f.all Char.isDigit &&
    decide (f.foldl (fun a c => a * 10 + (c.toNat - 48)) 0 ≤ 255) &&
    !(decide (f.length > 1) && f.head? == some '0')

/-- Go's stdlib IPv4 syntax: exactly four valid dotted-decimal fields. -/
def parseIPv4 (l : List Char) : Bool :=
  let fs := l.splitOn '.'
  fs.length == 4 && fs.all validIPv4Field

/-- Consume a leading run of hexadecimal digits, accumulating its value;
`none` when the value exceeds 16 bits (the stdlib parser errors there).
Returns the value, the digit count and the rest of the input. -/
def hexGroupAux : List Char → Nat → Nat → Option (Nat × Nat × List Char)
  | [], acc, cnt => some (acc, cnt, [])
  | c :: t, acc, cnt =>
    match hexDigitVal c with
    | some v =>
      let acc2 := acc * 16 + v
      if acc2 > 65535 then none else hexGroupAux t acc2 (cnt + 1)
    | none => some (acc, cnt, c :: t)

/-- The group loop of the stdlib IPv6 parser.  `i` counts address bytes
already filled, `hasEllipsis` whether a `::` was seen.  Validity does not
depend on the ellipsis position, only on its presence, so only that is
tracked.  Each recursive call consumes one hex group and advances `i` by
two below 16, so the fuel of 10 is never exhausted on any input reaching
the recursion. -/
def parseIPv6Loop : Nat → List Char → Nat → Bool → Bool
  | 0, _, _, _ => false
  | fuel + 1, s, i, hasEllipsis =>
    match hexGroupAux s 0 0 with
    | none => false
    | some (_, cnt, rest) =>
      if cnt = 0 then false
      else
        match rest with
        | '.' :: _ =>
          (if hasEllipsis then decide (i + 4 < 16) else decide (i = 12)) && parseIPv4 s
        | [] =>
          if hasEllipsis then decide (i + 2 < 16) else decide (i + 2 = 16)
        | ':' :: [] => false
        | ':' :: ':' :: rest2 =>
          if hasEllipsis then false
          else
            match rest2 with
            | [] => decide (i + 2 < 16)
            | _ => decide (i + 2 < 16) && parseIPv6Loop fuel rest2 (i + 2) true
        | ':' :: rest2 =>
          decide (i + 2 < 16) && parseIPv6Loop fuel rest2 (i + 2) hasEllipsis
        | _ => false

/-- Go's stdlib IPv6 syntax.  `net.ParseIP` rejects zoned addresses, so a
`%` makes the string invalid. -/
def parseIPv6 (l : List Char) : Bool :=
  if l.contains '%' then false
  else
    match l with
    | ':' :: ':' :: rest =>
      match rest with
      | [] => true
      | _ => parseIPv6Loop 10 rest 0 true
    | _ => parseIPv6Loop 10 l 0 false

/-- Go `net.ParseIP` viewed as a validity predicate: the first `.` or `:`
decides the family. -/
def parseIP (s : String) : Bool :=
  match s.data.find? (fun c => c = '.' ∨ c = ':') with
  | some '.' => parseIPv4 s.data
  | some ':' => parseIPv6 s.data
  | _ => false

/-- `isValidIP` from `vm.go`: the placeholder strings are rejected
outright, everything else must parse as an IP address. -/
def isValidIP (ip : String) : Bool :=
  if ip = "" ∨ ip = "dhcp" ∨ ip = "manual" ∨ ip = "static" then false
  else parseIP ip

/-! ## Detailed guest info (`GetDetailedVmInfo`, `vm.go`) -/

/-- The `name` value `GetDetailedVmInfo` copies. -/
def nameOf (vm : VM) (data : List (String × JValue)) : String :=
  match jLookup data "name" with
  | some (.str s) => s
  | _ => vm.name

/-- The `status` value `GetDetailedVmInfo` copies. -/
def statusOf (vm : VM) (data : List (String × JValue)) : String :=
  match jLookup data "status" with
  | some (.str s) => s
  | _ => vm.status

/-- The unconditional `disk` value `GetDetailedVmInfo` copies. -/
def diskPlainOf (vm : VM) (data : List (String × JValue)) : Int :=
  match jLookup data "disk" with
  | some (.num q) => goInt64OfFloat q
  | _ => vm.disk

/-- The unconditional `maxdisk` value `GetDetailedVmInfo` copies. -/
def maxDiskPlainOf (vm : VM) (data : List (String × JValue)) : Int :=
  match jLookup data "maxdisk" with
  | some (.num q) => goInt64OfFloat q
  | _ => vm.maxDisk

/-- The field block `GetDetailedVmInfo` copies from the status response
(the disk pair unconditionally); the sequential assignments touch pairwise
distinct fields and are one simultaneous update. -/
def applyDetailedStatusFields (vm : VM) (statusData : List (String × JValue)) : VM :=
  { vm with name := nameOf vm statusData, status := statusOf vm statusData,
            cpu := cpuOf vm statusData, mem := memOf vm statusData,
            maxMem := maxMemOf vm statusData, disk := diskPlainOf vm statusData,
            maxDisk := maxDiskPlainOf vm statusData, uptime := uptimeOf vm statusData,
            diskRead := diskReadOf vm statusData, diskWrite := diskWriteOf vm statusData,
            netIn := netInOf vm statusData, netOut := netOutOf vm statusData }

/-- The key test of the config-IP loop: `len(k) >= 3 && k[:3] == "net"`
(no digit requirement here, unlike `populateConfiguredMACs`). -/
def isNetIPKey (k : String) : Bool :=
  decide (k.length ≥ 3) && (String.mk (k.data.take 3) == "net")

/-- Strip a `/mask` suffix when the slash occurs at a positive index. -/
def stripMask (ip : String) : String :=
  match goIndexChar ip '/' with
  | some i => if i > 0 then String.mk (ip.data.take i) else ip
  | none => ip

/-- The part loop of the config-IP search: the first `ip=`-prefixed part
whose value, after mask stripping, is a valid IP. -/
def netEntryIP (netStr : String) : Option String :=
  (goSplitChar netStr ',').findSome? (fun part =>
    if decide (part.length ≥ 3) && (String.mk (part.data.take 3) == "ip=") then
      let ip := stripMask (String.mk (part.data.drop 3))
      if isValidIP ip then some ip else none
    else none)

/-- The key loop of the config-IP search over the decoded config entries
(one fixed iteration order of the Go map). -/
def extractConfigIP (configData : List (String × JValue)) : Option String :=
  configData.findSome? (fun kv =>
    if isNetIPKey kv.1 then
      match kv.2 with
      | .str netStr => netEntryIP netStr
      | _ => none
    else none)

/-- The `tags` value `GetDetailedVmInfo` copies from the config. -/
def tagsOf (vm : VM) (configData : List (String × JValue)) : String :=
  match jLookup configData "tags" with
  | some (.str t) => t
  | _ => vm.tags

/-- The guest IP after the config-IP loop: the first valid `ip=` value
found, otherwise the current IP. -/
def configIPOr (cur : String) (configData : List (String × JValue)) : String :=
  match extractConfigIP configData with
  | some ipv => ipv
  | none => cur

/-- `GetDetailedVmInfo`: both fetches must succeed and decode; then the
status fields, the config flags, the config IP (placeholders rejected) and
the configured-MAC set are filled in.  The sequential assignments touch
pairwise distinct fields and are one simultaneous update. -/
def getDetailedVmInfo (statusResp configResp : Except String JValue)
    (node vtype : String) (vmid : Int) : Except String VM :=
  match statusResp with
  | .error _ => .error "failed to get VM status"
  | .ok sres =>
    match jDataObj sres with
    | none => .error "unexpected format for VM status"
    | some statusData =>
      match configResp with
      | .error _ => .error "failed to get VM config"
      | .ok cres =>
        match jDataObj cres with
        | none => .error "unexpected format for VM config"
        | some configData =>
          let vm0 : VM := { id := vmid, node := node, vmType := vtype }
          let vm1 := applyDetailedStatusFields vm0 statusData
          .ok { vm1 with
            template := templateOfConfig vm1.template configData
            tags := tagsOf vm1 configData
            agentEnabled := agentEnabledOfConfig vm1.agentEnabled configData
            ip := configIPOr vm1.ip configData
            configuredMACs := some (populateMACsList configData)
            enriched := true }

/-! ## Storage deduplicator (spec section 4.5) -/

/-- Modelled from the spec: `NewStorageManager` starts with no entries. -/
def NewStorageManager : StorageManager := {}

/-- Modelled from the spec: `AddStorage` registers a reported storage
entry; when the entry's shared flag is set and an entry with the same id
already exists, its capacity is not counted again. -/
def StorageManager.AddStorage (sm : StorageManager) (s : Storage) : StorageManager :=
  if s.shared ≠ 0 ∧ sm.entries.any (fun e => e.id = s.id) then sm
  else { entries := sm.entries ++ [s] }

/-- Modelled from the spec: `GetTotalCapacity` sums `maxdisk` over the
counted entries (once per distinct shared id, per entry otherwise). -/
def StorageManager.GetTotalCapacity (sm : StorageManager) : Int :=
  (sm.entries.map Storage.maxDisk).sum

/-- Modelled from the spec: `GetTotalUsage` sums `disk` analogously. -/
def StorageManager.GetTotalUsage (sm : StorageManager) : Int :=
  (sm.entries.map Storage.disk).sum

/-! ## Cluster aggregator (`part_003`) -/

/-- The oracle for every suspension point one snapshot build may hit. -/
structure ApiEnv where
  clusterStatus : Except String JValue
  nodeStatus : String → Except String Node
  clusterResources : Except String JValue
  vmStatus : String → String → Int → Except String JValue
  vmConfig : String → String → Int → Except String JValue
  agentInterfaces : String → Int → Except String (List NetworkInterface)
  lxcInterfaces : String → Int → Except String (List NetworkInterface)
  agentFilesystems : String → Int → Except String (List Filesystem)

/-- The per-guest oracle slice of the cluster-wide oracle. -/
def vmEnvFor (env : ApiEnv) (vm : VM) : VMEnv :=
  { status := env.vmStatus vm.node vm.vmType vm.id
    config := env.vmConfig vm.node vm.vmType vm.id
    agentInterfaces := env.agentInterfaces vm.node vm.id
    lxcInterfaces := env.lxcInterfaces vm.node vm.id
    agentFilesystems := env.agentFilesystems vm.node vm.id }

/-- The freshly allocated cluster of `GetClusterStatus` and
`FastGetClusterStatus` (empty node list, fresh storage manager). -/
def emptyCluster : Cluster := {}

/-- `getClusterBasicStatus`: decode `/cluster/status`, take the cluster
record's fields and append one node stub per node record, preserving
response order. -/
def getClusterBasicStatus (resp : Except String JValue) (cluster : Cluster) :
    Except String Cluster :=
  match resp with
  | .error _ => .error "failed to get cluster status"
  | .ok res =>
    match jDataArr res with
    | none => .error "invalid cluster status response format"
    | some statusData =>
      .ok (statusData.foldl (fun cl item =>
        match item with
        | .obj itemMap =>
          if getString itemMap "type" = "cluster" then
            { cl with name := getString itemMap "name"
                      quorate := getBool itemMap "quorate"
                      totalNodes := getInt itemMap "nodes" }
          else if getString itemMap "type" = "node" then
            let nodeName := getString itemMap "name"
            { cl with nodes := cl.nodes ++
                [{ id := nodeName, name := nodeName,
                   ip := getString itemMap "ip",
                   online := getInt itemMap "online" = 1 }] }
          else cl
        | _ => cl) cluster)

/-- `updateNodeMetrics` (`part_003`): an already-offline node is skipped;
a failed status fetch flips the node offline, retaining every other field,
and reports an error; a successful fetch merges the full status (memory
only where not already set) and stamps the metrics update. -/
def updateNodeMetrics (nodeStatus : String → Except String Node) (node : Node) :
    Node × Option String :=
  if !node.online then (node, none)
  else
    match nodeStatus node.name with
    | .error e => ({ node with online := false },
                   some ("node " ++ node.name ++ " offline/unreachable: " ++ e))
    | .ok fullStatus =>
      ({ node with
          version := fullStatus.version
          kernelVersion := fullStatus.kernelVersion
          cpuCount := fullStatus.cpuCount
          memoryTotal := if node.memoryTotal = 0 then fullStatus.memoryTotal else node.memoryTotal
          memoryUsed := if node.memoryUsed = 0 then fullStatus.memoryUsed else node.memoryUsed
          totalStorage := fullStatus.totalStorage
          usedStorage := fullStatus.usedStorage
          uptime := fullStatus.uptime
          cpuInfo := fullStatus.cpuInfo
          loadAvg := fullStatus.loadAvg
          lastMetricsUpdate := true }, none)

/-- `enrichNodeStatuses` (`part_003`): every node is updated independently
(the concurrent fan-out merges on disjoint nodes); the collected errors
become a hard failure only when their count equals the node count. -/
def enrichNodeStatuses (nodeStatus : String → Except String Node) (cluster : Cluster) :
    Cluster × Option String :=
  let results := cluster.nodes.map (updateNodeMetrics nodeStatus)
  let cl := { cluster with nodes := results.map Prod.fst }
  let errors := results.filterMap Prod.snd
  if errors.length > 0 ∧ errors.length = cluster.nodes.length then
    (cl, some "all nodes unreachable")
  else (cl, none)

/-- The storage record `processClusterResources` builds from one
`storage`-typed resource. -/
def storageOfResource (resource : List (String × JValue)) (nodeName : String) : Storage :=
  { id := getString resource "id"
    name := getString resource "storage"
    content := getString resource "content"
    disk := goInt64OfFloat (getFloat resource "disk")
    maxDisk := goInt64OfFloat (getFloat resource "maxdisk")
    node := nodeName
    plugintype := getString resource "plugintype"
    status := getString resource "status"
    shared := getInt resource "shared"
    storageType := getString resource "type" }

/-- The guest record `processClusterResources` builds from one
`qemu`/`lxc`-typed resource. -/
def vmOfResource (resource : List (String × JValue)) (nodeName resType : String) : VM :=
  { id := getInt resource "vmid"
    name := getString resource "name"
    node := nodeName
    vmType := resType
    status := getString resource "status"
    ip := getString resource "ip"
    cpu := getFloat resource "cpu"
    mem := goInt64OfFloat (getFloat resource "mem")
    maxMem := goInt64OfFloat (getFloat resource "maxmem")
    disk := goInt64OfFloat (getFloat resource "disk")
    maxDisk := goInt64OfFloat (getFloat resource "maxdisk")
    uptime := goInt64OfFloat (getFloat resource "uptime")
    haState := getString resource "hastate"
    lock := getString resource "lock"
    tags := getString resource "tags"
    template := getBool resource "template"
    pool := getString resource "pool" }

/-- Membership in the node-lookup map built by `processClusterResources`
(node names are the cluster-status names, unique in a Proxmox cluster). -/
def nodeNamed (cluster : Cluster) (name : String) : Bool :=
  cluster.nodes.any (fun n => n.name = name)

/-- Update the node a resource record points at. -/
def updateNodeNamed (cluster : Cluster) (name : String) (f : Node → Node) : Cluster :=
  { cluster with nodes := cluster.nodes.map (fun n => if n.name = name then f n else n) }

/-- One iteration of the resource sweep: the `node` records override CPU
usage and memory, the `storage` records attach to their node and register
with the deduplicator, the `qemu`/`lxc` records append a summary guest. -/
def applyResource (cluster : Cluster) (item : JValue) : Cluster :=
  match item with
  | .obj resource =>
    let resType := getString resource "type"
    let nodeName := getString resource "node"
    if resType = "node" then
      if nodeNamed cluster nodeName then
        updateNodeNamed cluster nodeName (fun node =>
          let node := if getFloat resource "cpu" ≥ 0 then
              { node with cpuUsage := getFloat resource "cpu" }
            else node
          let node := if getFloat resource "mem" > 0 then
              { node with memoryUsed := getFloat resource "mem" / 1073741824 }
            else node
          if getFloat resource "maxmem" > 0 then
            { node with memoryTotal := getFloat resource "maxmem" / 1073741824 }
          else node)
      else cluster
    else if resType = "storage" then
      if nodeNamed cluster nodeName then
        let storage := storageOfResource resource nodeName
        let cluster := updateNodeNamed cluster nodeName
          (fun node => { node with storage := some storage })
        { cluster with storageManager := cluster.storageManager.AddStorage storage }
      else cluster
    else if resType = VMTypeQemu ∨ resType = VMTypeLXC then
      if nodeNamed cluster nodeName then
        updateNodeNamed cluster nodeName
          (fun node => { node with vms := node.vms ++ [vmOfResource resource nodeName resType] })
      else cluster
    else cluster
  | _ => cluster

/-- `processClusterResources`: decode `/cluster/resources` and sweep the
records in order. -/
def processClusterResources (resp : Except String JValue) (cluster : Cluster) :
    Except String Cluster :=
  match resp with
  | .error _ => .error "failed to get cluster resources"
  | .ok res =>
    match jDataArr res with
    | none => .error "invalid cluster resources response format"
    | some resourcesData => .ok (resourcesData.foldl applyResource cluster)

/-- The loop accumulator of `calculateClusterTotals`. -/
structure TotalsAcc where
  totalCPU : Rat := 0
  totalMem : Rat := 0
  usedMem : Rat := 0
  onlineNodes : Int := 0
  nodesWithMetrics : Int := 0
  cpuUsageSum : Rat := 0
deriving Repr, DecidableEq

/-- One loop iteration of `calculateClusterTotals`: online nodes are
counted; only online nodes with a positive core count contribute to the
sums (the `cluster.CPUUsage += node.CPUUsage` accumulation is carried in
`cpuUsageSum` and added to the cluster field afterwards). -/
def totalsStep (acc : TotalsAcc) (node : Node) : TotalsAcc :=
  if node.online then
    let acc := { acc with onlineNodes := acc.onlineNodes + 1 }
    if node.cpuCount > 0 then
      { acc with totalCPU := acc.totalCPU + node.cpuCount
                 totalMem := acc.totalMem + node.memoryTotal
                 usedMem := acc.usedMem + node.memoryUsed
                 cpuUsageSum := acc.cpuUsageSum + node.cpuUsage
                 nodesWithMetrics := acc.nodesWithMetrics + 1 }
    else acc
  else acc

/-- `calculateClusterTotals` (`part_003`): fold the nodes, take the storage
totals from the deduplicator, divide the accumulated CPU usage by the
metric-contributing node count when positive, and stamp the version from
the first node that has one. -/
def calculateClusterTotals (cluster : Cluster) : Cluster :=
  let acc := cluster.nodes.foldl totalsStep {}
  let cpuUsage := cluster.cpuUsage + acc.cpuUsageSum
  let cluster := { cluster with
    onlineNodes := acc.onlineNodes
    totalCPU := acc.totalCPU
    memoryTotal := acc.totalMem
    memoryUsed := acc.usedMem
    storageUsed := cluster.storageManager.GetTotalUsage
    storageTotal := cluster.storageManager.GetTotalCapacity
    cpuUsage := if acc.nodesWithMetrics > 0 then cpuUsage / (acc.nodesWithMetrics : Rat)
      else cpuUsage }
  match cluster.nodes.find? (fun n => n.version ≠ "") with
  | some node => { cluster with version := "Proxmox VE " ++ node.version }
  | none => cluster

/-! ## Guest enrichment passes and the background trace -/

/-- `EnrichVMs` (`vm.go`): the worker pool processes each running guest of
each online node independently (bounded concurrency, disjoint guests, so a
sequential fold is observationally equivalent); per-guest errors are
collected and only reported as one composite error. -/
def enrichVMs (env : ApiEnv) (cluster : Cluster) : Cluster × Option String :=
  let totalVMs := (cluster.nodes.filter (fun n => n.online)).foldl
    (fun acc n => acc + n.vms.length) 0
  if totalVMs = 0 then (cluster, none)
  else
    let nodes := cluster.nodes.map (fun n =>
      if n.online then
        { n with vms := n.vms.map (fun vm =>
            if vm.status = VMStatusRunning then (enrichWorkerStep (vmEnvFor env vm) vm).1
            else vm) }
      else n)
    let errs := cluster.nodes.foldl (fun acc n =>
      if n.online then
        acc ++ n.vms.filterMap (fun vm =>
          if vm.status = VMStatusRunning then (enrichWorkerStep (vmEnvFor env vm) vm).2
          else none)
      else acc) []
    ({ cluster with nodes := nodes },
     if errs.length > 0 then some "errors updating VM statuses" else none)

/-- Observable events of the background enrichment goroutine of
`FastGetClusterStatus`. -/
inductive EnrichEvent where
  | initial (node : String) (id : Int)
  | retry (node : String) (id : Int)
  | callback
deriving Repr, DecidableEq

/-- The guests the initial background pass enriches, in traversal order. -/
def initialPassEvents (cluster : Cluster) : List EnrichEvent :=
  cluster.nodes.foldl (fun acc n =>
    if n.online then
      acc ++ (n.vms.filter (fun vm => vm.status = VMStatusRunning)).map
        (fun vm => EnrichEvent.initial vm.node vm.id)
    else acc) []

/-- The retry condition of the delayed pass: a running QEMU guest with the
agent enabled whose agent data is still missing. -/
def needsRetry (vm : VM) : Bool :=
  vm.status = VMStatusRunning ∧ vm.vmType = VMTypeQemu ∧ vm.agentEnabled ∧
    (!vm.agentRunning ∨ vm.netInterfaces.length = 0)

/-- The delayed retry pass: re-run `GetVmStatus` once per retry target (a
failure leaves the guest as it was). -/
def retryPass (env : ApiEnv) (cluster : Cluster) : Cluster × List EnrichEvent :=
  let events := cluster.nodes.foldl (fun acc n =>
    if n.online then
      acc ++ (n.vms.filter needsRetry).map (fun vm => EnrichEvent.retry vm.node vm.id)
    else acc) []
  let nodes := cluster.nodes.map (fun n =>
    if n.online then
      { n with vms := n.vms.map (fun vm =>
          if needsRetry vm then
            match getVmStatus (vmEnvFor env vm) vm with
            | .ok v => v
            | .error _ => vm
          else vm) }
    else n)
  ({ cluster with nodes := nodes }, events)

/-- The background goroutine body of `FastGetClusterStatus`: initial
enrichment pass, delayed retry pass, then the completion callback (when
one was supplied), with the emitted events in program order. -/
def backgroundEnrichment (env : ApiEnv) (cluster : Cluster) (hasCallback : Bool) :
    Cluster × List EnrichEvent :=
  let pair := enrichVMs env cluster
  let ev1 := initialPassEvents cluster
  let pair2 := retryPass env pair.1
  (pair2.1, ev1 ++ pair2.2 ++ (if hasCallback then [EnrichEvent.callback] else []))

/-- `GetClusterStatus`: the five ordered phases; a guest-enrichment error
is only logged. -/
def getClusterStatus (env : ApiEnv) : Except String Cluster :=
  match getClusterBasicStatus env.clusterStatus emptyCluster with
  | .error e => .error e
  | .ok c1 =>
    let pair := enrichNodeStatuses env.nodeStatus c1
    match pair.2 with
    | some e => .error e
    | none =>
      match processClusterResources env.clusterResources pair.1 with
      | .error e => .error e
      | .ok c3 =>
        let pair4 := enrichVMs env c3
        .ok (calculateClusterTotals pair4.1)

/-- `FastGetClusterStatus`: phases one to three and the totals run
synchronously; guest enrichment and the retry pass run in the background.
The result records the snapshot handed back to the caller, the state after
background enrichment, and the background event trace.  On an error return
the goroutine is never launched, so the observable trace is empty. -/
def fastGetClusterStatus (env : ApiEnv) (hasCallback : Bool) :
    Except String (Cluster × Cluster × List EnrichEvent) :=
  match getClusterBasicStatus env.clusterStatus emptyCluster with
  | .error e => .error e
  | .ok c1 =>
    let pair := enrichNodeStatuses env.nodeStatus c1
    match pair.2 with
    | some e => .error e
    | none =>
      match processClusterResources env.clusterResources pair.1 with
      | .error e => .error e
      | .ok c3 =>
        let c4 := calculateClusterTotals c3
        let bg := backgroundEnrichment env c4 hasCallback
        .ok (c4, bg.1, bg.2)

/-- The observable background event trace of one `FastGetClusterStatus`
call (empty when the call returns an error before launching the
goroutine). -/
def fastTrace (env : ApiEnv) (hasCallback : Bool) : List EnrichEvent :=
  match fastGetClusterStatus env hasCallback with
  | .ok r => r.2.2
  | .error _ => []

/-! ## Guest list widget (`vm_list.go`) -/

/-- The comparison closure passed to `sort.Slice` in `SetVMs`: running
guests first, ties by numeric id. -/
def vmLess (a b : VM) : Bool :=
  if a.status = VMStatusRunning ∧ b.status ≠ VMStatusRunning then true
  else if a.status ≠ VMStatusRunning ∧ b.status = VMStatusRunning then false
  else a.id < b.id

/-- The sorted copy `SetVMs` builds.  `sort.Slice` guarantees a permutation
in which no later element is `vmLess` than an earlier one; `mergeSort` with
the complement relation realises exactly that contract. -/
def setVMsSorted (vms : List VM) : List VM :=
  vms.mergeSort (fun a b => !vmLess b a)

/-- The state of the guest list panel that matters to selection: the
internal slice selection indices resolve against, and the display order of
the added rows (one row per sorted guest). -/
structure VMListState where
  vms : List VM := []
  displayed : List VM := []
deriving Repr, DecidableEq

/-- `SetVMs`: the internal slice is replaced by the sorted copy and the
rows are added in the same order. -/
def setVMs (vms : List VM) : VMListState :=
  let sorted := setVMsSorted vms
  { vms := sorted, displayed := sorted }

/-! ## Claim-side specifications (formalisations of the spec's wording,
kept separate from the source embedding so the two can be compared) -/

/-- The spec's keep condition for agent-reported interfaces: drop loopback,
drop `veth`-prefixed names, and filter by configured MAC only when the
configured-MAC set is non-empty (an empty set keeps every remaining
interface). -/
def specKeepInterface (macs : Option (List String)) (iface : NetworkInterface) : Bool :=
  !iface.isLoopback && !(goStartsWith iface.name "veth") &&
    (decide (macSetLen macs = 0) || macSetHasKey macs (goToUpper iface.macAddress))

/-- The spec's best-IP rule: the first IPv4-typed address if one exists,
otherwise the first IPv6-typed address, otherwise the first address of the
original list; no addresses give an empty list. -/
def bestIPSpec (ips : List IPAddress) : List IPAddress :=
  match ips.filter (fun ip => ip.ipType == IPTypeIPv4) with
  | a :: _ => [a]
  | [] =>
    match ips.filter (fun ip => ip.ipType == IPTypeIPv6) with
    | b :: _ => [b]
    | [] => ips.take 1

/-- ASCII lower-case letter test (code points 97 to 122). -/
def isAsciiLower (c : Char) : Bool :=
  decide (97 ≤ c.toNat ∧ c.toNat ≤ 122)

/-- The claimed well-formedness of a stored configured MAC: 17 characters,
exactly 5 colons, no lower-case letters. -/
def wellFormedMAC (s : String) : Bool :=
  decide (s.length = 17) && decide (goCountChar s ':' = 5) &&
    s.data.all (fun c => !isAsciiLower c)

/-- A set of configured MACs (nil or not) is well formed when every key
is. -/
def wellFormedMACSet (macs : Option (List String)) : Prop :=
  ∀ l, macs = some l → ∀ m ∈ l, wellFormedMAC m = true

/-- Status group of a guest for the claimed display order: running guests
rank before all others. -/
def statusRank (vm : VM) : Nat :=
  if vm.status = VMStatusRunning then 0 else 1

/-- The claimed display order: ascending status rank, ties in ascending
numeric id. -/
def claimOrder (a b : VM) : Prop :=
  statusRank a < statusRank b ∨ (statusRank a = statusRank b ∧ a.id ≤ b.id)

/-- The entries the deduplicator keeps from a stream of storage records,
given the entries already present: a shared entry whose id an earlier
entry already carries is skipped, everything else is kept. -/
def keptStorages : List Storage → List Storage → List Storage
  | _, [] => []
  | prev, s :: t =>
    if s.shared ≠ 0 ∧ prev.any (fun e => e.id = s.id) then keptStorages prev t
    else s :: keptStorages (prev ++ [s]) t

/-- The storage records a resource sweep registers: the `storage`-typed
records whose owning node is a known cluster node. -/
def storageRecsOf (names : List String) (items : List JValue) : List Storage :=
  items.filterMap (fun item =>
    match item with
    | .obj r =>
      if getString r "type" = "storage" ∧ names.any (fun x => x = getString r "node") then
        some (storageOfResource r (getString r "node"))
      else none
    | _ => none)

/-- The shared entries of a record stream. -/
def sharedOf (recs : List Storage) : List Storage :=
  recs.filter (fun s => decide (s.shared ≠ 0))

/-- The non-shared entries of a record stream. -/
def nonSharedOf (recs : List Storage) : List Storage :=
  recs.filter (fun s => decide (s.shared = 0))

/-- The capacity the claim assigns to one distinct shared storage id. -/
def sharedCapOf (recs : List Storage) (i : String) : Int :=
  match (sharedOf recs).find? (fun s => s.id = i) with
  | some s => s.maxDisk
  | none => 0

/-- The usage the claim assigns to one distinct shared storage id. -/
def sharedUseOf (recs : List Storage) (i : String) : Int :=
  match (sharedOf recs).find? (fun s => s.id = i) with
  | some s => s.disk
  | none => 0

/-- The claimed cluster storage capacity: `maxdisk` once per distinct
shared storage id, plus once per non-shared entry. -/
def specStorageTotal (recs : List Storage) : Int :=
  (((sharedOf recs).map Storage.id).toFinset).sum (sharedCapOf recs) +
    ((nonSharedOf recs).map Storage.maxDisk).sum

/-- The claimed cluster storage usage, analogous. -/
def specStorageUsed (recs : List Storage) : Int :=
  (((sharedOf recs).map Storage.id).toFinset).sum (sharedUseOf recs) +
    ((nonSharedOf recs).map Storage.disk).sum

/-! ## Concrete inputs used by witnesses and counterexamples -/

/-- A status response whose `data` object carries no fields. -/
def emptyStatusResp : Except String JValue :=
  .ok (.obj [("data", .obj [])])

/-- Agent-reported interface with a configured MAC (scenarios S3/S4). -/
def ifaceEth0 : NetworkInterface :=
  { name := "eth0", macAddress := "aa:bb:cc:dd:ee:ff"
    ipAddresses := [{ ipType := "ipv4", address := "10.0.0.5" }], isLoopback := false }

/-- Agent-reported interface with an unconfigured MAC (scenario S3). -/
def ifaceRogue : NetworkInterface :=
  { name := "eth1", macAddress := "de:ad:be:ef:00:01"
    ipAddresses := [{ ipType := "ipv4", address := "192.168.9.9" }], isLoopback := false }

/-- The S4 interface: a v6 address first, then a v4, then another v6. -/
def s4Iface : NetworkInterface :=
  { name := "ens18", macAddress := "AA:BB:CC:DD:EE:FF"
    ipAddresses := [{ ipType := "ipv6", address := "fe80::1" },
                    { ipType := "ipv4", address := "10.0.0.5" },
                    { ipType := "ipv6", address := "2001:db8::1" }] }

/-- A running QEMU guest as the summary pass creates it. -/
def c3vm : VM :=
  { id := 100, name := "web", node := "pve1", vmType := "qemu", status := "running" }

/-- Oracle for the counterexample run: the guest config enables the agent
but names no network device, so the configured-MAC map is non-nil and
empty. -/
def c3envEmptyMACs : VMEnv :=
  { status := emptyStatusResp
    config := .ok (.obj [("data", .obj [("agent", .str "1")])])
    agentInterfaces := .ok [ifaceEth0]
    lxcInterfaces := .error "not applicable"
    agentFilesystems := .error "agent error" }

/-- Oracle for the S3 witness run: one configured MAC, two reported
interfaces. -/
def c3envS3 : VMEnv :=
  { status := emptyStatusResp
    config := .ok (.obj [("data", .obj
      [("agent", .str "1"), ("net0", .str "virtio=AA:BB:CC:DD:EE:FF,bridge=vmbr0")])])
    agentInterfaces := .ok [ifaceEth0, ifaceRogue]
    lxcInterfaces := .error "not applicable"
    agentFilesystems := .error "agent error" }

/-- A running QEMU guest whose summary disk values are known. -/
def c8vm : VM :=
  { id := 100, node := "pve1", vmType := "qemu", status := "running", disk := 5, maxDisk := 11 }

/-- A real filesystem surviving the filesystem filter. -/
def fsRoot : Filesystem :=
  { name := "root", mountpoint := "/", fsType := "ext4", totalBytes := 104857600, usedBytes := 7 }

/-- Oracle for the C8 counterexample: the status response omits the disk
pair, but the guest agent reports one usable filesystem. -/
def c8env : VMEnv :=
  { status := emptyStatusResp
    config := .ok (.obj [("data", .obj
      [("agent", .str "1"), ("net0", .str "virtio=AA:BB:CC:DD:EE:FF,bridge=vmbr0")])])
    agentInterfaces := .ok [ifaceEth0]
    lxcInterfaces := .error "not applicable"
    agentFilesystems := .ok [fsRoot] }

/-- A running LXC guest with summary disk values (C8 witness). -/
def c8lxcVm : VM :=
  { id := 7, node := "pve1", vmType := "lxc", status := "running", disk := 5, maxDisk := 11 }

/-- Oracle for the C8 witness: status omits the disk pair, everything else
fails. -/
def c8lxcEnv : VMEnv :=
  { status := emptyStatusResp
    config := .error "config error"
    agentInterfaces := .error "not applicable"
    lxcInterfaces := .error "agent error"
    agentFilesystems := .error "not applicable" }

/-- A config object with one network device: MAC in `hwaddr` form, IP a
placeholder (scenario S5). -/
def s5configData : List (String × JValue) :=
  [("net0", .str "name=eth0,ip=dhcp,hwaddr=AA:BB:CC:DD:EE:FF")]

/-- The S5 status response (no fields of interest). -/
def s5status : Except String JValue := .ok (.obj [("data", .obj [])])

/-- The S5 config response. -/
def s5config : Except String JValue := .ok (.obj [("data", .obj s5configData)])

/-- The guest `GetDetailedVmInfo` builds in scenario S5: no IP adopted,
the hwaddr MAC stored. -/
def s5vm : VM :=
  { id := 101, node := "pve1", vmType := "lxc"
    configuredMACs := some ["AA:BB:CC:DD:EE:FF"], enriched := true }

/-- A config object exercising all three MAC formats (C9 witness). -/
def c9cfg : List (String × JValue) :=
  [("net0", .str "name=eth0,hwaddr=aa:bb:cc:dd:ee:ff,ip=dhcp"),
   ("net1", .str "virtio=11:22:33:44:55:66,bridge=vmbr0"),
   ("cores", .num 4)]

/-- A cluster for the C4 witness: one contributing node, one online node
without cores, one offline node. -/
def c4Cluster : Cluster :=
  { nodes := [
      { name := "a", online := true, cpuCount := 8, cpuUsage := (1 : Rat) / 2,
        memoryTotal := 32, memoryUsed := 16 },
      { name := "b", online := true, cpuCount := 0, cpuUsage := 1 },
      { name := "c", online := false, cpuCount := 4, cpuUsage := 1, memoryTotal := 64 }] }

/-- The S2 resource records: shared storage `nas` reported by both nodes,
local storage reported per node. -/
def s2Items : List JValue :=
  [
    .obj [("type", .str "storage"), ("node", .str "a"), ("id", .str "nas"),
          ("storage", .str "nas"), ("shared", .num 1),
          ("maxdisk", .num 1000000000000), ("disk", .num 111)],
    .obj [("type", .str "storage"), ("node", .str "b"), ("id", .str "nas"),
          ("storage", .str "nas"), ("shared", .num 1),
          ("maxdisk", .num 1000000000000), ("disk", .num 111)],
    .obj [("type", .str "storage"), ("node", .str "a"), ("id", .str "local-a"),
          ("storage", .str "local"), ("shared", .num 0),
          ("maxdisk", .num 500000000000), ("disk", .num 222)],
    .obj [("type", .str "storage"), ("node", .str "b"), ("id", .str "local-b"),
          ("storage", .str "local"), ("shared", .num 0),
          ("maxdisk", .num 500000000000), ("disk", .num 333)]]

/-- The S2 resource response body. -/
def s2Resources : JValue :=
  .obj [("data", .arr s2Items)]

/-- The two-node cluster the S2 sweep runs against. -/
def s2Cluster : Cluster :=
  { nodes := [{ id := "a", name := "a", online := true },
              { id := "b", name := "b", online := true }] }

/-- The outcome of the S2 resource sweep. -/
def s2Folded : Cluster := s2Items.foldl applyResource s2Cluster

/-- Oracle for the C1 witness: node `a` fails its status call, node `b`
succeeds, both other endpoints respond. -/
def c1Env : ApiEnv :=
  { clusterStatus := .ok (.obj [("data", .arr [
      .obj [("type", .str "node"), ("name", .str "a"), ("online", .num 1)],
      .obj [("type", .str "node"), ("name", .str "b"), ("online", .num 1)]])])
    nodeStatus := fun name =>
      if name = "a" then .error "500 internal server error"
      else .ok { name := "b", version := "8.2.2", cpuCount := 8 }
    clusterResources := .ok (.obj [("data", .arr [])])
    vmStatus := fun _ _ _ => .error "unused"
    vmConfig := fun _ _ _ => .error "unused"
    agentInterfaces := fun _ _ => .error "unused"
    lxcInterfaces := fun _ _ => .error "unused"
    agentFilesystems := fun _ _ => .error "unused" }

/-- The node stubs phase one builds for the C1 witness environment. -/
def c1BasicCluster : Cluster :=
  { nodes := [{ id := "a", name := "a", online := true },
              { id := "b", name := "b", online := true }] }

/-- Oracle for the C5 counterexample: the very first request fails, so the
background goroutine is never launched. -/
def c5BadEnv : ApiEnv :=
  { clusterStatus := .error "network down"
    nodeStatus := fun _ => .error "unused"
    clusterResources := .error "unused"
    vmStatus := fun _ _ _ => .error "unused"
    vmConfig := fun _ _ _ => .error "unused"
    agentInterfaces := fun _ _ => .error "unused"
    lxcInterfaces := fun _ _ => .error "unused"
    agentFilesystems := fun _ _ => .error "unused" }

/-- Oracle for the C5 witness: an empty but healthy cluster. -/
def c5GoodEnv : ApiEnv :=
  { clusterStatus := .ok (.obj [("data", .arr [])])
    nodeStatus := fun _ => .error "unused"
    clusterResources := .ok (.obj [("data", .arr [])])
    vmStatus := fun _ _ _ => .error "unused"
    vmConfig := fun _ _ _ => .error "unused"
    agentInterfaces := fun _ _ => .error "unused"
    lxcInterfaces := fun _ _ => .error "unused"
    agentFilesystems := fun _ _ => .error "unused" }

/-- The nodes that contribute to the cluster totals: online with a
positive core count. -/
def nodeContrib (n : Node) : Bool :=
  n.online && decide (n.cpuCount > 0)

/-- The node names of a cluster (the keys of the node-lookup map). -/
def nodeNames (c : Cluster) : List String :=
  c.nodes.map Node.name

/-- The snapshot `FastGetClusterStatus` builds over the empty healthy
cluster of `c5GoodEnv` (the CPU-usage accumulation leaves a syntactic
`0 + 0`). -/
def c5Snapshot : Cluster := { cpuUsage := 0 + 0 }

/-! ## Auxiliary lemmas -/

theorem toNat_charOfNat (n : Nat) (h : n < 55296) : (Char.ofNat n).toNat = n := by
  unfold Char.ofNat
  rw [dif_pos (Or.inl h)]
  simp [Char.ofNatAux, Char.toNat, UInt32.toNat]

theorem isAsciiLower_goToUpperChar (c : Char) : isAsciiLower (goToUpperChar c) = false := by
  unfold goToUpperChar isAsciiLower
  by_cases h : 97 ≤ c.toNat ∧ c.toNat ≤ 122
  · rw [if_pos h, toNat_charOfNat _ (by omega)]
    simp only [decide_eq_false_iff_not]
    omega
  · rw [if_neg h]
    simp only [decide_eq_false_iff_not]
    exact h

theorem goToUpper_no_lower (s : String) : ∀ c ∈ (goToUpper s).data, isAsciiLower c = false := by
  intro c hc
  unfold goToUpper at hc
  simp only [String.mk, List.mem_map] at hc
  obtain ⟨a, _, rfl⟩ := hc
  exact isAsciiLower_goToUpperChar a

theorem filterMap_if_eq {α β : Type} (p : α → Bool) (f : α → β) (l : List α) :
    l.filterMap (fun a => if p a then some (f a) else none) = (l.filter p).map f := by
  induction l with
  | nil => rfl
  | cons a t ih =>
    by_cases h : p a <;> simp [List.filterMap_cons, List.filter_cons, h, ih]

theorem find?_eq_head_filter {α : Type} (p : α → Bool) (l : List α) :
    l.find? p = (l.filter p).head? := by
  induction l with
  | nil => rfl
  | cons a t ih =>
    by_cases h : p a
    · rw [List.find?_cons_of_pos _ h, List.filter_cons_of_pos h, List.head?_cons]
    · rw [List.find?_cons_of_neg _ h, List.filter_cons_of_neg h, ih]

theorem selectBestIP_eq_bestIPSpec (ips : List IPAddress) :
    selectBestIP ips = bestIPSpec ips := by
  unfold selectBestIP bestIPSpec
  rw [find?_eq_head_filter, find?_eq_head_filter]
  cases h4 : ips.filter (fun ip => ip.ipType == IPTypeIPv4) with
  | cons a t => simp
  | nil =>
    simp only [List.head?_nil]
    cases ips with
    | nil => rfl
    | cons first rest =>
      cases h6 : (first :: rest).filter (fun ip => ip.ipType == IPTypeIPv6) with
      | cons b t => simp
      | nil => simp

theorem vmLE_iff (a b : VM) : (!vmLess b a) = true ↔ claimOrder a b := by
  unfold vmLess claimOrder statusRank
  by_cases ha : a.status = VMStatusRunning <;> by_cases hb : b.status = VMStatusRunning <;>
    simp [ha, hb] <;> omega

/-- C10: `SetVMs` displays (and resolves selection indices against) the
input sorted with running guests first and ascending numeric id inside
each status group, without changing the set of guests. -/
theorem c10_setvms_sorted_partition (vms : List VM) :
    (setVMs vms).displayed = (setVMs vms).vms ∧
    ((setVMs vms).vms).Perm vms ∧
    ((setVMs vms).vms).Pairwise claimOrder := by
  refine ⟨rfl, List.mergeSort_perm vms _, ?_⟩
  have htrans : ∀ a b c : VM,
      (!vmLess b a) = true → (!vmLess c b) = true → (!vmLess c a) = true := by
    intro a b c h1 h2
    rw [vmLE_iff] at h1 h2 ⊢
    unfold claimOrder at h1 h2 ⊢
    omega
  have htotal : ∀ a b : VM, ((!vmLess b a) || (!vmLess a b)) = true := by
    intro a b
    rw [Bool.or_eq_true, vmLE_iff, vmLE_iff]
    unfold claimOrder
    omega
  have hp := List.sorted_mergeSort htrans htotal vms
  exact hp.imp (fun h => (vmLE_iff _ _).1 h)

/-- C6: every interface surviving either enrichment filter is a reported
interface whose address list was reduced to the claimed best IP (first
IPv4, else first IPv6, else the first address), hence carries at most one
address, and an interface without addresses ends with an empty list. -/
theorem c6_best_ip_selection :
    (∀ (macs : Option (List String)) (raw : List NetworkInterface) i',
        i' ∈ filterQemuInterfaces macs raw →
        ∃ i ∈ raw, i' = { i with ipAddresses := bestIPSpec i.ipAddresses }) ∧
    (∀ (macs : Option (List String)) (raw : List NetworkInterface) i',
        i' ∈ filterLxcInterfaces macs raw →
        ∃ i ∈ raw, i' = { i with ipAddresses := bestIPSpec i.ipAddresses }) ∧
    (∀ ips : List IPAddress, (bestIPSpec ips).length ≤ 1 ∧ (ips = [] → bestIPSpec ips = [])) := by
  refine ⟨?_, ?_, ?_⟩
  · intro macs raw i' hi
    unfold filterQemuInterfaces at hi
    rw [List.mem_filterMap] at hi
    obtain ⟨i, hmem, hf⟩ := hi
    refine ⟨i, hmem, ?_⟩
    by_cases h : keepQemuInterface macs i
    · rw [if_pos h, Option.some_inj] at hf
      rw [← hf, selectBestIP_eq_bestIPSpec]
    · rw [if_neg h] at hf
      exact absurd hf (by simp)
  · intro macs raw i' hi
    unfold filterLxcInterfaces at hi
    rw [List.mem_filterMap] at hi
    obtain ⟨i, hmem, hf⟩ := hi
    refine ⟨i, hmem, ?_⟩
    by_cases h : keepLxcInterface macs i
    · rw [if_pos h, Option.some_inj] at hf
      rw [← hf, selectBestIP_eq_bestIPSpec]
    · rw [if_neg h] at hf
      exact absurd hf (by simp)
  · intro ips
    constructor
    · unfold bestIPSpec
      cases h4 : ips.filter (fun ip => ip.ipType == IPTypeIPv4) with
      | cons a t => simp
      | nil =>
        cases h6 : ips.filter (fun ip => ip.ipType == IPTypeIPv6) with
        | cons b t => simp
        | nil =>
          simp only [List.length_take]
          omega
    · intro h
      subst h
      rfl

/-- Witness for C6 at the S4 interface: the surviving copy carries exactly
the IPv4 address `10.0.0.5`. -/
theorem c6_witness :
    ∃ i ∈ [s4Iface],
      ({ s4Iface with ipAddresses := [{ ipType := "ipv4", address := "10.0.0.5" }] }
          : NetworkInterface) =
        { i with ipAddresses := bestIPSpec i.ipAddresses } :=
  c6_best_ip_selection.1 none [s4Iface] _ (by decide)

theorem macAccepted_iff (cand : String) :
    macAccepted cand = true ↔ cand ≠ "" ∧ cand.length = 17 ∧ goCountChar cand ':' = 5 := by
  unfold macAccepted
  simp

theorem macCandidate_empty_or_upper (part : String) :
    macCandidate part = "" ∨ ∃ x, macCandidate part = goToUpper x := by
  unfold macCandidate
  split
  · exact Or.inr ⟨_, rfl⟩
  · split
    · split
      · exact Or.inr ⟨_, rfl⟩
      · exact Or.inl rfl
    · split
      · exact Or.inr ⟨_, rfl⟩
      · exact Or.inl rfl

theorem netEntryMAC_wellFormed (netStr mac : String) (h : netEntryMAC netStr = some mac) :
    wellFormedMAC mac = true := by
  unfold netEntryMAC at h
  rw [List.findSome?_eq_some_iff] at h
  obtain ⟨l₁, part, l₂, _, hf, _⟩ := h
  by_cases hacc : macAccepted (macCandidate part)
  · rw [if_pos hacc, Option.some_inj] at hf
    subst hf
    obtain ⟨hne, hlen, hcount⟩ := (macAccepted_iff _).1 hacc
    rcases macCandidate_empty_or_upper part with hemp | ⟨x, hx⟩
    · exact absurd hemp hne
    · unfold wellFormedMAC
      rw [hx] at hlen hcount ⊢
      have hall : ((goToUpper x).data.all (fun c => !isAsciiLower c)) = true := by
        rw [List.all_eq_true]
        intro c hc
        rw [goToUpper_no_lower x c hc]
        rfl
      rw [hlen, hcount, hall]
      simp
  · rw [if_neg hacc] at hf
    exact absurd hf (by simp)

theorem populateMACsList_mem_wellFormed (cfg : List (String × JValue)) :
    ∀ m ∈ populateMACsList cfg, wellFormedMAC m = true := by
  unfold populateMACsList
  suffices h : ∀ (l : List (String × JValue)) (acc : List String),
      (∀ m ∈ acc, wellFormedMAC m = true) →
      ∀ m ∈ l.foldl (fun acc kv =>
        if isNetConfigKey kv.1 then
          match kv.2 with
          | .str netStr =>
            match netEntryMAC netStr with
            | some mac => macInsert acc mac
            | none => acc
          | _ => acc
        else acc) acc, wellFormedMAC m = true by
    exact h cfg [] (by intro m hm; cases hm)
  intro l
  induction l with
  | nil => intro acc hacc m hm; exact hacc m hm
  | cons kv t ih =>
    intro acc hacc m hm
    simp only [List.foldl_cons] at hm
    refine ih _ ?_ m hm
    by_cases hk : isNetConfigKey kv.1
    · rw [if_pos hk]
      cases hv : kv.2 with
      | str netStr =>
        show ∀ m' ∈ (match netEntryMAC netStr with
            | some mac => macInsert acc mac
            | none => acc), wellFormedMAC m' = true
        cases hmac : netEntryMAC netStr with
        | some mac =>
          intro m' hm'
          have hm2 : m' ∈ (if acc.contains mac = true then acc else acc ++ [mac]) := hm'
          by_cases hmem : acc.contains mac = true
          · rw [if_pos hmem] at hm2
            exact hacc m' hm2
          · rw [if_neg hmem] at hm2
            rcases List.mem_append.1 hm2 with h1 | h2
            · exact hacc m' h1
            · rw [List.mem_singleton.1 h2]
              exact netEntryMAC_wellFormed netStr mac hmac
        | none => exact hacc
      | null => exact hacc
      | bool b => exact hacc
      | num q => exact hacc
      | arr xs => exact hacc
      | obj fs => exact hacc
    · rw [if_neg hk]
      exact hacc

theorem macInsert_length_le (acc : List String) (m : String) :
    (macInsert acc m).length ≤ acc.length + 1 := by
  unfold macInsert
  split
  · omega
  · simp

theorem populateMACsList_length_le (cfg : List (String × JValue)) :
    (populateMACsList cfg).length ≤ (cfg.filter (fun kv => isNetConfigKey kv.1)).length := by
  unfold populateMACsList
  suffices h : ∀ (l : List (String × JValue)) (acc : List String),
      (l.foldl (fun acc kv =>
        if isNetConfigKey kv.1 then
          match kv.2 with
          | .str netStr =>
            match netEntryMAC netStr with
            | some mac => macInsert acc mac
            | none => acc
          | _ => acc
        else acc) acc).length ≤
        acc.length + (l.filter (fun kv => isNetConfigKey kv.1)).length by
    simpa using h cfg []
  intro l
  induction l with
  | nil => intro acc; simp
  | cons kv t ih =>
    intro acc
    simp only [List.foldl_cons, List.filter_cons]
    by_cases hk : isNetConfigKey kv.1
    · rw [if_pos hk]
      simp only [hk, if_true, List.length_cons]
      have hstep : (match kv.2 with
          | JValue.str netStr =>
            match netEntryMAC netStr with
            | some mac => macInsert acc mac
            | none => acc
          | _ => acc).length ≤ acc.length + 1 := by
        cases kv.2 with
        | str netStr =>
          show (match netEntryMAC netStr with
              | some mac => macInsert acc mac
              | none => acc).length ≤ acc.length + 1
          cases netEntryMAC netStr with
          | some mac => exact macInsert_length_le acc mac
          | none => exact Nat.le_succ _
        | null => exact Nat.le_succ _
        | bool b => exact Nat.le_succ _
        | num q => exact Nat.le_succ _
        | arr xs => exact Nat.le_succ _
        | obj fs => exact Nat.le_succ _
      have hrec := ih (match kv.2 with
          | JValue.str netStr =>
            match netEntryMAC netStr with
            | some mac => macInsert acc mac
            | none => acc
          | _ => acc)
      omega
    · rw [if_neg hk]
      simp only [hk, Bool.false_eq_true, if_false]
      exact ih acc

theorem qemuApplyConfig_shape (env : VMEnv) (vm : VM) :
    qemuApplyConfig env vm = vm ∨
    ∃ cfg, qemuApplyConfig env vm =
      { vm with configuredMACs := some (populateMACsList cfg),
                agentEnabled := agentEnabledOfConfig vm.agentEnabled cfg } := by
  unfold qemuApplyConfig populateConfiguredMACs
  cases env.config with
  | error e => exact Or.inl rfl
  | ok res =>
    dsimp only
    cases jDataObj res with
    | none => exact Or.inl rfl
    | some cfg => exact Or.inr ⟨cfg, rfl⟩

theorem lxcApplyConfig_shape (env : VMEnv) (vm : VM) :
    lxcApplyConfig env vm = vm ∨
    ∃ cfg, lxcApplyConfig env vm =
      { vm with configuredMACs := some (populateMACsList cfg) } := by
  unfold lxcApplyConfig populateConfiguredMACs
  cases env.config with
  | error e => exact Or.inl rfl
  | ok res =>
    dsimp only
    cases jDataObj res with
    | none => exact Or.inl rfl
    | some cfg => exact Or.inr ⟨cfg, rfl⟩

theorem qemuAgentEnrich_frame (env : VMEnv) (vm : VM) :
    (qemuAgentEnrich env vm).configuredMACs = vm.configuredMACs ∧
    (qemuAgentEnrich env vm).vmType = vm.vmType ∧
    (qemuAgentEnrich env vm).status = vm.status := by
  unfold qemuAgentEnrich agentFailFallback
  dsimp only
  repeat' split
  all_goals exact ⟨rfl, rfl, rfl⟩

theorem lxcAgentEnrich_frame (env : VMEnv) (vm : VM) :
    (lxcAgentEnrich env vm).configuredMACs = vm.configuredMACs ∧
    (lxcAgentEnrich env vm).disk = vm.disk ∧
    (lxcAgentEnrich env vm).maxDisk = vm.maxDisk := by
  unfold lxcAgentEnrich
  dsimp only
  repeat' split
  all_goals exact ⟨rfl, rfl, rfl⟩

theorem diskValOf_of_absent (vm : VM) (data : List (String × JValue))
    (habs : ∀ q, jLookup data "disk" = some (.num q) → ¬ q > 0) :
    diskValOf vm data = vm.disk := by
  unfold diskValOf
  cases hd : jLookup data "disk" with
  | none => rfl
  | some v =>
    cases v with
    | num q => exact if_neg (habs q hd)
    | null => rfl
    | bool b => rfl
    | str s => rfl
    | arr xs => rfl
    | obj fs => rfl

theorem maxDiskValOf_of_absent (vm : VM) (data : List (String × JValue))
    (habs : ∀ q, jLookup data "maxdisk" = some (.num q) → ¬ q > 0) :
    maxDiskValOf vm data = vm.maxDisk := by
  unfold maxDiskValOf
  cases hd : jLookup data "maxdisk" with
  | none => rfl
  | some v =>
    cases v with
    | num q => exact if_neg (habs q hd)
    | null => rfl
    | bool b => rfl
    | str s => rfl
    | arr xs => rfl
    | obj fs => rfl

theorem getVmStatus_confMACs (env : VMEnv) (vm vm' : VM) (h : getVmStatus env vm = .ok vm') :
    vm'.configuredMACs = vm.configuredMACs ∨
    ∃ cfg, vm'.configuredMACs = some (populateMACsList cfg) := by
  unfold getVmStatus at h
  cases hst : env.status with
  | error e => rw [hst] at h; exact absurd h (by simp)
  | ok res =>
    rw [hst] at h
    dsimp only at h
    cases hdo : jDataObj res with
    | none => rw [hdo] at h; exact absurd h (by simp)
    | some data =>
      rw [hdo] at h
      dsimp only at h
      injection h with h
      subst h
      by_cases hq : (applyStatusFields vm data).vmType = VMTypeQemu ∧
          (applyStatusFields vm data).status = VMStatusRunning
      · rw [if_pos hq]
        rcases qemuApplyConfig_shape env (applyStatusFields vm data) with hsh | ⟨cfg, hsh⟩
        · rw [hsh]
          by_cases ha : (applyStatusFields vm data).agentEnabled
          · rw [if_pos ha]
            exact Or.inl ((qemuAgentEnrich_frame env _).1)
          · rw [if_neg ha]
            exact Or.inl rfl
        · rw [hsh]
          by_cases ha : ({ applyStatusFields vm data with
              configuredMACs := some (populateMACsList cfg),
              agentEnabled :=
                agentEnabledOfConfig (applyStatusFields vm data).agentEnabled cfg } : VM).agentEnabled
          · rw [if_pos ha]
            exact Or.inr ⟨cfg, (qemuAgentEnrich_frame env _).1⟩
          · rw [if_neg ha]
            exact Or.inr ⟨cfg, rfl⟩
      · rw [if_neg hq]
        by_cases hl : (applyStatusFields vm data).vmType = VMTypeLXC ∧
            (applyStatusFields vm data).status = VMStatusRunning
        · rw [if_pos hl]
          rcases lxcApplyConfig_shape env (applyStatusFields vm data) with hsh | ⟨cfg, hsh⟩
          · rw [hsh]
            exact Or.inl ((lxcAgentEnrich_frame env _).1)
          · rw [hsh]
            exact Or.inr ⟨cfg, (lxcAgentEnrich_frame env _).1⟩
        · rw [if_neg hl]
          exact Or.inl rfl

/-- C9: every key `populateConfiguredMACs` stores is an upper-case,
17-character, 5-colon string; at most one key is stored per `netN` config
entry; and guest-status enrichment preserves well-formedness of the
configured-MAC set (it either keeps the set or rebuilds it with
`populateConfiguredMACs`). -/
theorem c9_configured_macs_wellformed :
    (∀ cfg : List (String × JValue), ∀ m ∈ populateMACsList cfg, wellFormedMAC m = true) ∧
    (∀ cfg : List (String × JValue),
      (populateMACsList cfg).length ≤ (cfg.filter (fun kv => isNetConfigKey kv.1)).length) ∧
    (∀ (env : VMEnv) (vm vm' : VM), getVmStatus env vm = .ok vm' →
      wellFormedMACSet vm.configuredMACs → wellFormedMACSet vm'.configuredMACs) := by
  refine ⟨populateMACsList_mem_wellFormed, populateMACsList_length_le, ?_⟩
  intro env vm vm' h hwf
  rcases getVmStatus_confMACs env vm vm' h with heq | ⟨cfg, heq⟩
  · intro l hl
    rw [heq] at hl
    exact hwf l hl
  · intro l hl
    rw [heq] at hl
    injection hl with hl
    subst hl
    exact populateMACsList_mem_wellFormed cfg

/-- Witness for C9 at a concrete config: the stored hwaddr-derived MAC is
well formed, and at most two MACs are stored for the two `netN` keys. -/
theorem c9_witness :
    wellFormedMAC "AA:BB:CC:DD:EE:FF" = true ∧ (populateMACsList c9cfg).length ≤ 2 := by
  constructor
  · exact c9_configured_macs_wellformed.1 c9cfg "AA:BB:CC:DD:EE:FF" (by decide)
  · exact le_of_le_of_eq (c9_configured_macs_wellformed.2.1 c9cfg) (by decide)

theorem qemuAgentEnrich_netIfaces (env : VMEnv) (vm : VM) (raw : List NetworkInterface)
    (hifc : env.agentInterfaces = .ok raw) (hraw : raw.length > 0) :
    (qemuAgentEnrich env vm).netInterfaces = filterQemuInterfaces vm.configuredMACs raw := by
  unfold qemuAgentEnrich
  rw [hifc]
  dsimp only
  rw [if_pos hraw]
  repeat' split
  all_goals rfl

theorem getVmStatus_run_qemu (env : VMEnv) (vm : VM) (sres : JValue)
    (data : List (String × JValue))
    (hst : env.status = .ok sres) (hdo : jDataObj sres = some data)
    (hq : vm.vmType = VMTypeQemu) (hr : vm.status = VMStatusRunning)
    (ha : (qemuApplyConfig env (applyStatusFields vm data)).agentEnabled = true) :
    getVmStatus env vm =
      .ok { qemuAgentEnrich env (qemuApplyConfig env (applyStatusFields vm data)) with
            enriched := true } := by
  unfold getVmStatus
  rw [hst]
  dsimp only
  rw [hdo]
  dsimp only
  rw [if_pos ⟨hq, hr⟩, if_pos ha]

/-- Counterexample to C3 as stated: a running, agent-enabled QEMU guest
whose config yields a non-nil but empty configured-MAC set.  The claim
says every non-loopback, non-veth interface is kept when the set is empty,
but the code keeps none (the keep-all case requires the map to be nil). -/
theorem c3_counterexample :
    (getVmStatus c3envEmptyMACs c3vm).toOption.map VM.netInterfaces ≠
      some (([ifaceEth0].filter (specKeepInterface (some []))).map
        (fun i => { i with ipAddresses := bestIPSpec i.ipAddresses })) ∧
    (getVmStatus c3envEmptyMACs c3vm).toOption.map VM.configuredMACs = some (some []) ∧
    (getVmStatus c3envEmptyMACs c3vm).toOption.map VM.netInterfaces = some [] ∧
    ([ifaceEth0].filter (specKeepInterface (some []))).length = 1 := by
  refine ⟨by decide, rfl, rfl, rfl⟩

/-- C3 as amended: for a running QEMU guest with the agent enabled and a
non-empty agent interface reply, the surviving interfaces are exactly the
reported ones that are not loopback, not `veth`-named and — when the
configured-MAC map is non-nil — whose upper-cased MAC is a key of the map;
a nil map (config unavailable) keeps every non-loopback non-veth
interface, and a non-nil empty map keeps none. -/
theorem c3_amended_qemu_interface_filter (env : VMEnv) (vm : VM) (sres : JValue)
    (data : List (String × JValue)) (raw : List NetworkInterface)
    (hst : env.status = .ok sres) (hdo : jDataObj sres = some data)
    (hq : vm.vmType = VMTypeQemu) (hr : vm.status = VMStatusRunning)
    (ha : (qemuApplyConfig env (applyStatusFields vm data)).agentEnabled = true)
    (hifc : env.agentInterfaces = .ok raw) (hrawne : raw ≠ []) :
    ∃ vm', getVmStatus env vm = .ok vm' ∧
      vm'.netInterfaces =
        (raw.filter (keepQemuInterface
            (qemuApplyConfig env (applyStatusFields vm data)).configuredMACs)).map
          (fun i => { i with ipAddresses := selectBestIP i.ipAddresses }) := by
  have hlen : raw.length > 0 := by
    cases raw with
    | nil => exact absurd rfl hrawne
    | cons a t => simp
  refine ⟨_, getVmStatus_run_qemu env vm sres data hst hdo hq hr ha, ?_⟩
  have h1 := qemuAgentEnrich_netIfaces env
    (qemuApplyConfig env (applyStatusFields vm data)) raw hifc hlen
  show (qemuAgentEnrich env (qemuApplyConfig env (applyStatusFields vm data))).netInterfaces = _
  rw [h1]
  unfold filterQemuInterfaces
  exact filterMap_if_eq _ _ raw

/-- Witness for the amended C3 at scenario S3: with `AA:BB:CC:DD:EE:FF`
configured, the matching interface survives and the rogue one is
dropped. -/
theorem c3_witness :
    ∃ vm', getVmStatus c3envS3 c3vm = .ok vm' ∧
      vm'.netInterfaces =
        (([ifaceEth0, ifaceRogue]).filter (keepQemuInterface
            (qemuApplyConfig c3envS3 (applyStatusFields c3vm [])).configuredMACs)).map
          (fun i => { i with ipAddresses := selectBestIP i.ipAddresses }) :=
  c3_amended_qemu_interface_filter c3envS3 c3vm (.obj [("data", .obj [])]) []
    [ifaceEth0, ifaceRogue] rfl rfl rfl rfl (by decide) rfl (by decide)

theorem qemuAgentEnrich_disk (env : VMEnv) (vm : VM) :
    ((qemuAgentEnrich env vm).disk = vm.disk ∧ (qemuAgentEnrich env vm).maxDisk = vm.maxDisk) ∨
    (∃ fss, env.agentFilesystems = .ok fss ∧
      ((fss.filter keepFilesystem).map Filesystem.totalBytes).sum > 0 ∧
      (qemuAgentEnrich env vm).disk = ((fss.filter keepFilesystem).map Filesystem.usedBytes).sum ∧
      (qemuAgentEnrich env vm).maxDisk =
        ((fss.filter keepFilesystem).map Filesystem.totalBytes).sum) := by
  unfold qemuAgentEnrich agentFailFallback
  cases hifc : env.agentInterfaces with
  | error e =>
    dsimp only
    split
    · exact Or.inl ⟨rfl, rfl⟩
    · exact Or.inl ⟨rfl, rfl⟩
  | ok raw =>
    dsimp only
    by_cases hlen : raw.length > 0
    · rw [if_pos hlen]
      cases hfs : env.agentFilesystems with
      | error e =>
        dsimp only
        split <;> exact Or.inl ⟨rfl, rfl⟩
      | ok fss =>
        dsimp only
        by_cases hfl : fss.length > 0
        · rw [if_pos hfl]
          by_cases htot : ((fss.filter keepFilesystem).map Filesystem.totalBytes).sum > 0
          · rw [if_pos htot]
            split <;> exact Or.inr ⟨fss, rfl, htot, rfl, rfl⟩
          · rw [if_neg htot]
            split <;> exact Or.inl ⟨rfl, rfl⟩
        · rw [if_neg hfl]
          split <;> exact Or.inl ⟨rfl, rfl⟩
    · rw [if_neg hlen]
      split
      · exact Or.inl ⟨rfl, rfl⟩
      · exact Or.inl ⟨rfl, rfl⟩

theorem lxcApplyConfig_disk (env : VMEnv) (vm : VM) :
    (lxcApplyConfig env vm).disk = vm.disk ∧ (lxcApplyConfig env vm).maxDisk = vm.maxDisk := by
  rcases lxcApplyConfig_shape env vm with h | ⟨cfg, h⟩ <;> rw [h] <;> exact ⟨rfl, rfl⟩

theorem qemuApplyConfig_disk (env : VMEnv) (vm : VM) :
    (qemuApplyConfig env vm).disk = vm.disk ∧ (qemuApplyConfig env vm).maxDisk = vm.maxDisk := by
  rcases qemuApplyConfig_shape env vm with h | ⟨cfg, h⟩ <;> rw [h] <;> exact ⟨rfl, rfl⟩

/-- C8 as amended: when the status response omits the disk (resp. maxdisk)
field or reports a non-positive value, the disk pair survives the status
pass unchanged; after the call it is either still unchanged or overridden
by the guest-agent filesystem pass (filtered filesystems with a positive
total), in which case it equals the filtered sums.  The `EnrichVMs` worker
additionally restores the pre-call value of a field that is zero after the
call (for non-negative pre-call values). -/
theorem c8_disk_preservation (env : VMEnv) (vm vm' : VM) (sres : JValue)
    (data : List (String × JValue))
    (hst : env.status = .ok sres) (hdo : jDataObj sres = some data)
    (hok : getVmStatus env vm = .ok vm')
    (hdabs : ∀ q, jLookup data "disk" = some (.num q) → ¬ q > 0)
    (hmabs : ∀ q, jLookup data "maxdisk" = some (.num q) → ¬ q > 0) :
    ((vm'.disk = vm.disk ∧ vm'.maxDisk = vm.maxDisk) ∨
      (∃ fss, env.agentFilesystems = .ok fss ∧
        ((fss.filter keepFilesystem).map Filesystem.totalBytes).sum > 0 ∧
        vm'.disk = ((fss.filter keepFilesystem).map Filesystem.usedBytes).sum ∧
        vm'.maxDisk = ((fss.filter keepFilesystem).map Filesystem.totalBytes).sum)) ∧
    (∀ (env2 : VMEnv) (vm2 : VM), vm2.disk ≥ 0 →
      (match getVmStatus env2 vm2 with | .ok v => v | .error _ => vm2).disk = 0 →
      ((enrichWorkerStep env2 vm2).1).disk = vm2.disk) ∧
    (∀ (env2 : VMEnv) (vm2 : VM), vm2.maxDisk ≥ 0 →
      (match getVmStatus env2 vm2 with | .ok v => v | .error _ => vm2).maxDisk = 0 →
      ((enrichWorkerStep env2 vm2).1).maxDisk = vm2.maxDisk) := by
  refine ⟨?_, ?_, ?_⟩
  · unfold getVmStatus at hok
    rw [hst] at hok
    dsimp only at hok
    rw [hdo] at hok
    dsimp only at hok
    injection hok with hok
    subst hok
    have hd1 : (applyStatusFields vm data).disk = vm.disk := diskValOf_of_absent vm data hdabs
    have hm1 : (applyStatusFields vm data).maxDisk = vm.maxDisk :=
      maxDiskValOf_of_absent vm data hmabs
    by_cases hq : (applyStatusFields vm data).vmType = VMTypeQemu ∧
        (applyStatusFields vm data).status = VMStatusRunning
    · rw [if_pos hq]
      obtain ⟨hqd, hqm⟩ := qemuApplyConfig_disk env (applyStatusFields vm data)
      by_cases ha : (qemuApplyConfig env (applyStatusFields vm data)).agentEnabled
      · rw [if_pos ha]
        rcases qemuAgentEnrich_disk env (qemuApplyConfig env (applyStatusFields vm data)) with
          ⟨hed, hem⟩ | ⟨fss, hfs, htot, hed, hem⟩
        · exact Or.inl ⟨hed.trans (hqd.trans hd1), hem.trans (hqm.trans hm1)⟩
        · exact Or.inr ⟨fss, hfs, htot, hed, hem⟩
      · rw [if_neg ha]
        exact Or.inl ⟨hqd.trans hd1, hqm.trans hm1⟩
    · rw [if_neg hq]
      by_cases hl : (applyStatusFields vm data).vmType = VMTypeLXC ∧
          (applyStatusFields vm data).status = VMStatusRunning
      · rw [if_pos hl]
        obtain ⟨hld, hlm⟩ := lxcApplyConfig_disk env (applyStatusFields vm data)
        obtain ⟨_, hed, hem⟩ :=
          lxcAgentEnrich_frame env (lxcApplyConfig env (applyStatusFields vm data))
        exact Or.inl ⟨hed.trans (hld.trans hd1), hem.trans (hlm.trans hm1)⟩
      · rw [if_neg hl]
        exact Or.inl ⟨hd1, hm1⟩
  · intro env2 vm2 hnn hzero
    unfold enrichWorkerStep
    dsimp only
    cases hg : getVmStatus env2 vm2 with
    | ok v =>
      rw [hg] at hzero
      dsimp only at hzero
      dsimp only
      split <;> (try dsimp only) <;> (try split) <;> (try dsimp only) <;> omega
    | error e =>
      rw [hg] at hzero
      dsimp only at hzero
      dsimp only
      split <;> (try dsimp only) <;> (try split) <;> (try dsimp only) <;> omega
  · intro env2 vm2 hnn hzero
    unfold enrichWorkerStep
    dsimp only
    cases hg : getVmStatus env2 vm2 with
    | ok v =>
      rw [hg] at hzero
      dsimp only at hzero
      dsimp only
      split <;> (try dsimp only) <;> (try split) <;> (try dsimp only) <;> omega
    | error e =>
      rw [hg] at hzero
      dsimp only at hzero
      dsimp only
      split <;> (try dsimp only) <;> (try split) <;> (try dsimp only) <;> omega

/-- Counterexample to C8 as stated: the status response omits `disk`, the
pre-call value is positive, yet the guest-agent filesystem pass overrides
`Disk` (5 before, 7 after), so "Disk is unchanged after the call" fails. -/
theorem c8_counterexample :
    c8vm.disk = 5 ∧
    jDataObj (.obj [("data", .obj [])]) = some [] ∧
    jLookup [] "disk" = none ∧
    (getVmStatus c8env c8vm).toOption.map VM.disk = some 7 ∧
    ¬ (getVmStatus c8env c8vm).toOption.map VM.disk = some c8vm.disk := by
  exact ⟨rfl, rfl, rfl, by decide, by decide⟩

/-- Witness for the amended C8 at a running LXC guest whose status response
omits the disk pair: both values survive the call unchanged. -/
theorem c8_witness :
    (({ c8lxcVm with enriched := true } : VM).disk = c8lxcVm.disk ∧
        ({ c8lxcVm with enriched := true } : VM).maxDisk = c8lxcVm.maxDisk) ∨
    (∃ fss, c8lxcEnv.agentFilesystems = .ok fss ∧
      ((fss.filter keepFilesystem).map Filesystem.totalBytes).sum > 0 ∧
      ({ c8lxcVm with enriched := true } : VM).disk =
        ((fss.filter keepFilesystem).map Filesystem.usedBytes).sum ∧
      ({ c8lxcVm with enriched := true } : VM).maxDisk =
        ((fss.filter keepFilesystem).map Filesystem.totalBytes).sum) :=
  (c8_disk_preservation c8lxcEnv c8lxcVm { c8lxcVm with enriched := true }
    (.obj [("data", .obj [])]) [] rfl rfl rfl
    (fun q h => nomatch h) (fun q h => nomatch h)).1

theorem foldl_totalsStep (l : List Node) (acc : TotalsAcc) :
    l.foldl totalsStep acc =
      { totalCPU := acc.totalCPU + ((l.filter nodeContrib).map Node.cpuCount).sum
        totalMem := acc.totalMem + ((l.filter nodeContrib).map Node.memoryTotal).sum
        usedMem := acc.usedMem + ((l.filter nodeContrib).map Node.memoryUsed).sum
        onlineNodes := acc.onlineNodes + ((l.filter (fun n => n.online)).length : Int)
        nodesWithMetrics := acc.nodesWithMetrics + ((l.filter nodeContrib).length : Int)
        cpuUsageSum := acc.cpuUsageSum + ((l.filter nodeContrib).map Node.cpuUsage).sum } := by
  induction l generalizing acc with
  | nil => simp
  | cons n t ih =>
    rw [List.foldl_cons, ih]
    unfold totalsStep nodeContrib
    by_cases hon : n.online
    · by_cases hcpu : n.cpuCount > 0
      · simp [hon, hcpu, List.filter_cons]
        and_intros <;> ring
      · simp [hon, hcpu, List.filter_cons]
        and_intros <;> ring
    · simp [hon, List.filter_cons]

/-- C4: over a fresh snapshot (accumulated CPU usage still zero),
`calculateClusterTotals` reports the sums of core count, memory total and
memory used over exactly the online nodes with positive core count, and
the mean CPU usage over those same nodes (zero when none contribute). -/
theorem c4_cluster_totals (cluster : Cluster) (h0 : cluster.cpuUsage = 0) :
    (calculateClusterTotals cluster).totalCPU =
      ((cluster.nodes.filter nodeContrib).map Node.cpuCount).sum ∧
    (calculateClusterTotals cluster).memoryTotal =
      ((cluster.nodes.filter nodeContrib).map Node.memoryTotal).sum ∧
    (calculateClusterTotals cluster).memoryUsed =
      ((cluster.nodes.filter nodeContrib).map Node.memoryUsed).sum ∧
    (calculateClusterTotals cluster).cpuUsage =
      (if (cluster.nodes.filter nodeContrib).length = 0 then 0
       else ((cluster.nodes.filter nodeContrib).map Node.cpuUsage).sum /
         ((cluster.nodes.filter nodeContrib).length : Rat)) := by
  unfold calculateClusterTotals
  rw [foldl_totalsStep]
  dsimp only
  split
  case _ node heq =>
    refine ⟨by simp, by simp, by simp, ?_⟩
    rw [h0]
    by_cases hlen : (cluster.nodes.filter nodeContrib).length = 0
    · rw [if_pos hlen]
      rw [List.length_eq_zero] at hlen
      rw [hlen]
      norm_num
    · rw [if_neg hlen]
      rw [if_pos (by omega : (0 : Int) + ((cluster.nodes.filter nodeContrib).length : Int) > 0)]
      push_cast
      rw [zero_add, zero_add, zero_add]
  case _ heq =>
    refine ⟨by simp, by simp, by simp, ?_⟩
    rw [h0]
    by_cases hlen : (cluster.nodes.filter nodeContrib).length = 0
    · rw [if_pos hlen]
      rw [List.length_eq_zero] at hlen
      rw [hlen]
      norm_num
    · rw [if_neg hlen]
      rw [if_pos (by omega : (0 : Int) + ((cluster.nodes.filter nodeContrib).length : Int) > 0)]
      push_cast
      rw [zero_add, zero_add, zero_add]

/-- Witness for C4 at a concrete three-node cluster (one contributing, one
online without cores, one offline). -/
theorem c4_witness :
    (calculateClusterTotals c4Cluster).totalCPU =
      ((c4Cluster.nodes.filter nodeContrib).map Node.cpuCount).sum ∧
    (calculateClusterTotals c4Cluster).memoryTotal =
      ((c4Cluster.nodes.filter nodeContrib).map Node.memoryTotal).sum ∧
    (calculateClusterTotals c4Cluster).memoryUsed =
      ((c4Cluster.nodes.filter nodeContrib).map Node.memoryUsed).sum ∧
    (calculateClusterTotals c4Cluster).cpuUsage =
      (if (c4Cluster.nodes.filter nodeContrib).length = 0 then 0
       else ((c4Cluster.nodes.filter nodeContrib).map Node.cpuUsage).sum /
         ((c4Cluster.nodes.filter nodeContrib).length : Rat)) :=
  c4_cluster_totals c4Cluster rfl

theorem length_filterMap_lt_of_none {α β : Type} (f : α → Option β) (l : List α) (a : α)
    (ha : a ∈ l) (hfa : f a = none) : (l.filterMap f).length < l.length := by
  induction l with
  | nil => cases ha
  | cons x t ih =>
    rw [List.filterMap_cons]
    rcases List.mem_cons.1 ha with rfl | hmem
    · rw [hfa]
      have := List.length_filterMap_le f t
      simp only [List.length_cons]
      omega
    · cases hfx : f x with
      | none =>
        have := ih hmem
        simp only [List.length_cons]
        omega
      | some b =>
        have := ih hmem
        simp only [List.length_cons, List.length_cons]
        omega

theorem filterMap_length_eq_imp {α β : Type} (f : α → Option β) (l : List α)
    (h : (l.filterMap f).length = l.length) : ∀ a ∈ l, (f a).isSome := by
  intro a ha
  by_contra hns
  have hnone : f a = none := Option.not_isSome_iff_eq_none.1 hns
  exact absurd h (Nat.ne_of_lt (length_filterMap_lt_of_none f l a ha hnone))

theorem updateNodeMetrics_ok_none (nodeStatus : String → Except String Node) (n : Node)
    (hon : n.online = true) (ns : Node) (hok : nodeStatus n.name = .ok ns) :
    (updateNodeMetrics nodeStatus n).2 = none := by
  simp [updateNodeMetrics, hon, hok]

theorem updateNodeMetrics_err (nodeStatus : String → Except String Node) (n : Node)
    (hon : n.online = true) (e : String) (herr : nodeStatus n.name = .error e) :
    updateNodeMetrics nodeStatus n = ({ n with online := false },
      some ("node " ++ n.name ++ " offline/unreachable: " ++ e)) := by
  simp [updateNodeMetrics, hon, herr]

theorem enrichNodeStatuses_none_of_ok (nodeStatus : String → Except String Node)
    (c : Cluster) (n : Node) (hmem : n ∈ c.nodes) (hon : n.online = true)
    (ns : Node) (hok : nodeStatus n.name = .ok ns) :
    (enrichNodeStatuses nodeStatus c).2 = none := by
  unfold enrichNodeStatuses
  dsimp only
  rw [List.filterMap_map]
  simp only [Function.comp_def]
  rw [if_neg]
  rintro ⟨hpos, heq⟩
  have hlt := length_filterMap_lt_of_none
    (fun x => (updateNodeMetrics nodeStatus x).2) c.nodes n hmem
    (updateNodeMetrics_ok_none nodeStatus n hon ns hok)
  omega

theorem enrichNodeStatuses_fst (nodeStatus : String → Except String Node) (c : Cluster) :
    (enrichNodeStatuses nodeStatus c).1 =
      { c with nodes := c.nodes.map (fun n => (updateNodeMetrics nodeStatus n).1) } := by
  unfold enrichNodeStatuses
  dsimp only
  rw [List.map_map]
  split
  · rfl
  · rfl

theorem enrichNodeStatuses_hard_err (nodeStatus : String → Except String Node) (c : Cluster)
    (hne : (enrichNodeStatuses nodeStatus c).2 ≠ none) :
    ∀ n ∈ c.nodes, n.online = true ∧ ∃ e, nodeStatus n.name = .error e := by
  intro n hmem
  unfold enrichNodeStatuses at hne
  dsimp only at hne
  rw [List.filterMap_map] at hne
  simp only [Function.comp_def] at hne
  by_cases hcond :
      (List.filterMap (fun x => (updateNodeMetrics nodeStatus x).2) c.nodes).length > 0 ∧
      (List.filterMap (fun x => (updateNodeMetrics nodeStatus x).2) c.nodes).length =
        c.nodes.length
  · obtain ⟨_, heq⟩ := hcond
    have hsome := filterMap_length_eq_imp _ _ heq n hmem
    by_cases hon : n.online
    · refine ⟨hon, ?_⟩
      cases hns : nodeStatus n.name with
      | ok ns =>
        rw [updateNodeMetrics_ok_none nodeStatus n hon ns hns] at hsome
        exact absurd hsome (by simp)
      | error e => exact ⟨e, rfl⟩
    · exfalso
      have hoff : n.online = false := Bool.not_eq_true _ ▸ (by simpa using hon)
      rw [show (updateNodeMetrics nodeStatus n).2 = none by simp [updateNodeMetrics, hoff]]
        at hsome
      exact absurd hsome (by simp)
  · exfalso
    rw [if_neg hcond] at hne
    exact hne rfl

/-- C1: with the basic cluster status and the resources endpoint healthy,
a snapshot build in which at least one node status call fails while
another succeeds completes without an error (both in `GetClusterStatus`
and `FastGetClusterStatus`); node enrichment reports no hard error, every
failing online node is flipped offline with all other fields retained,
and a hard enrichment error can only arise when every node is online with
a failing status call. -/
theorem c1_partial_node_failure (env : ApiEnv) (c1 : Cluster)
    (hbasic : getClusterBasicStatus env.clusterStatus emptyCluster = .ok c1)
    (res : JValue) (items : List JValue)
    (hres : env.clusterResources = .ok res) (harr : jDataArr res = some items)
    (hfail : ∃ n ∈ c1.nodes, n.online = true ∧ ∃ e, env.nodeStatus n.name = .error e)
    (hsucc : ∃ n ∈ c1.nodes, n.online = true ∧ ∃ ns, env.nodeStatus n.name = .ok ns) :
    (∃ c, getClusterStatus env = .ok c) ∧
    (∃ r, fastGetClusterStatus env true = .ok r) ∧
    (enrichNodeStatuses env.nodeStatus c1).2 = none ∧
    ((enrichNodeStatuses env.nodeStatus c1).1 =
      { c1 with nodes := c1.nodes.map (fun n => (updateNodeMetrics env.nodeStatus n).1) }) ∧
    (∀ n ∈ c1.nodes, n.online = true → ∀ e, env.nodeStatus n.name = .error e →
      (updateNodeMetrics env.nodeStatus n).1 = { n with online := false }) ∧
    (∀ c' : Cluster, (enrichNodeStatuses env.nodeStatus c').2 ≠ none →
      ∀ n ∈ c'.nodes, n.online = true ∧ ∃ e, env.nodeStatus n.name = .error e) := by
  obtain ⟨nOK, hmemOK, honOK, nsOK, hokOK⟩ := hsucc
  have hnone := enrichNodeStatuses_none_of_ok env.nodeStatus c1 nOK hmemOK honOK nsOK hokOK
  refine ⟨?_, ?_, hnone, enrichNodeStatuses_fst env.nodeStatus c1, ?_, ?_⟩
  · unfold getClusterStatus
    rw [hbasic]
    dsimp only
    rw [hnone]
    dsimp only
    unfold processClusterResources
    rw [hres]
    dsimp only
    rw [harr]
    exact ⟨_, rfl⟩
  · unfold fastGetClusterStatus
    rw [hbasic]
    dsimp only
    rw [hnone]
    dsimp only
    unfold processClusterResources
    rw [hres]
    dsimp only
    rw [harr]
    exact ⟨_, rfl⟩
  · intro n hmem hon e herr
    rw [updateNodeMetrics_err env.nodeStatus n hon e herr]
  · exact enrichNodeStatuses_hard_err env.nodeStatus

/-- Witness for C1: two online nodes, node `a` failing its status call and
node `b` succeeding; the build completes without error. -/
theorem c1_witness :
    (∃ c, getClusterStatus c1Env = .ok c) ∧
    (∃ r, fastGetClusterStatus c1Env true = .ok r) ∧
    (enrichNodeStatuses c1Env.nodeStatus c1BasicCluster).2 = none ∧
    ((enrichNodeStatuses c1Env.nodeStatus c1BasicCluster).1 =
      { c1BasicCluster with nodes :=
          c1BasicCluster.nodes.map (fun n => (updateNodeMetrics c1Env.nodeStatus n).1) }) ∧
    (∀ n ∈ c1BasicCluster.nodes, n.online = true → ∀ e, c1Env.nodeStatus n.name = .error e →
      (updateNodeMetrics c1Env.nodeStatus n).1 = { n with online := false }) ∧
    (∀ c' : Cluster, (enrichNodeStatuses c1Env.nodeStatus c').2 ≠ none →
      ∀ n ∈ c'.nodes, n.online = true ∧ ∃ e, c1Env.nodeStatus n.name = .error e) :=
  c1_partial_node_failure c1Env c1BasicCluster rfl (.obj [("data", .arr [])]) [] rfl rfl
    ⟨{ id := "a", name := "a", online := true }, by decide, rfl,
      "500 internal server error", rfl⟩
    ⟨{ id := "b", name := "b", online := true }, by decide, rfl,
      { name := "b", version := "8.2.2", cpuCount := 8 }, rfl⟩

theorem mem_foldl_append {α β : Type} (f : β → List α) (p : β → Bool) (l : List β)
    (acc : List α) (x : α)
    (hx : x ∈ l.foldl (fun acc b => if p b then acc ++ f b else acc) acc) :
    x ∈ acc ∨ ∃ b ∈ l, x ∈ f b := by
  induction l generalizing acc with
  | nil => exact Or.inl hx
  | cons b t ih =>
    rw [List.foldl_cons] at hx
    rcases ih _ hx with hacc | ⟨b', hb', hxb⟩
    · by_cases hp : p b
      · rw [if_pos hp] at hacc
        rcases List.mem_append.1 hacc with h1 | h2
        · exact Or.inl h1
        · exact Or.inr ⟨b, List.mem_cons_self b t, h2⟩
      · rw [if_neg hp] at hacc
        exact Or.inl hacc
    · exact Or.inr ⟨b', List.mem_cons_of_mem b hb', hxb⟩

theorem callback_not_mem_initialPassEvents (c : Cluster) :
    EnrichEvent.callback ∉ initialPassEvents c := by
  intro h
  unfold initialPassEvents at h
  rcases mem_foldl_append
      (fun n => (n.vms.filter (fun vm => vm.status = VMStatusRunning)).map
        (fun vm => EnrichEvent.initial vm.node vm.id))
      (fun n => n.online) c.nodes [] EnrichEvent.callback h with h0 | ⟨n, _, hf⟩
  · cases h0
  · rw [List.mem_map] at hf
    obtain ⟨vm, _, habs⟩ := hf
    cases habs

theorem callback_not_mem_retryPass (env : ApiEnv) (c : Cluster) :
    EnrichEvent.callback ∉ (retryPass env c).2 := by
  intro h
  unfold retryPass at h
  dsimp only at h
  rcases mem_foldl_append
      (fun n => (n.vms.filter needsRetry).map (fun vm => EnrichEvent.retry vm.node vm.id))
      (fun n => n.online) c.nodes [] EnrichEvent.callback h with h0 | ⟨n, _, hf⟩
  · cases h0
  · rw [List.mem_map] at hf
    obtain ⟨vm, _, habs⟩ := hf
    cases habs

/-- Counterexample to C5 as stated: when the first request of
`FastGetClusterStatus` fails, the call returns an error before launching
the background goroutine, so the callback is never invoked — not exactly
once. -/
theorem c5_counterexample :
    ¬ ((fastTrace c5BadEnv true).count EnrichEvent.callback = 1) := by
  have h : fastTrace c5BadEnv true = [] := rfl
  rw [h]
  decide

/-- C5 as amended: on every `FastGetClusterStatus` call that returns
without an error, the completion callback fires exactly once, strictly
after the initial enrichment pass and the delayed retry pass (it is the
last background event). -/
theorem c5_callback_once (env : ApiEnv) (init fin : Cluster) (tr : List EnrichEvent)
    (h : fastGetClusterStatus env true = .ok (init, fin, tr)) :
    tr.count EnrichEvent.callback = 1 ∧ tr.getLast? = some EnrichEvent.callback := by
  unfold fastGetClusterStatus at h
  cases hb : getClusterBasicStatus env.clusterStatus emptyCluster with
  | error e => rw [hb] at h; exact absurd h (by simp)
  | ok c1 =>
    rw [hb] at h
    dsimp only at h
    cases hn : (enrichNodeStatuses env.nodeStatus c1).2 with
    | some e => rw [hn] at h; exact absurd h (by simp)
    | none =>
      rw [hn] at h
      dsimp only at h
      cases hp : processClusterResources env.clusterResources
          (enrichNodeStatuses env.nodeStatus c1).1 with
      | error e => rw [hp] at h; exact absurd h (by simp)
      | ok c3 =>
        rw [hp] at h
        dsimp only at h
        injection h with h
        simp only [Prod.mk.injEq] at h
        obtain ⟨-, -, h3⟩ := h
        unfold backgroundEnrichment at h3
        dsimp only at h3
        rw [if_pos rfl] at h3
        subst h3
        constructor
        · rw [List.count_append, List.count_append]
          rw [List.count_eq_zero.2 (callback_not_mem_initialPassEvents _)]
          rw [List.count_eq_zero.2 (callback_not_mem_retryPass _ _)]
          rfl
        · rw [List.getLast?_append]
          rfl

/-- Witness for the amended C5 at an empty healthy cluster: the trace is
exactly one callback event. -/
theorem c5_witness :
    ([EnrichEvent.callback] : List EnrichEvent).count EnrichEvent.callback = 1 ∧
    ([EnrichEvent.callback] : List EnrichEvent).getLast? = some EnrichEvent.callback :=
  c5_callback_once c5GoodEnv c5Snapshot c5Snapshot [EnrichEvent.callback] (by rfl)

theorem netEntryIP_some (netStr ipv : String) (h : netEntryIP netStr = some ipv) :
    ∃ part ∈ goSplitChar netStr ',',
      (decide (part.length ≥ 3) && (String.mk (part.data.take 3) == "ip=")) = true ∧
      isValidIP (stripMask (String.mk (part.data.drop 3))) = true ∧
      ipv = stripMask (String.mk (part.data.drop 3)) := by
  unfold netEntryIP at h
  rw [List.findSome?_eq_some_iff] at h
  obtain ⟨l1, part, l2, hsplit, hf, _⟩ := h
  have hmem : part ∈ goSplitChar netStr ',' := by
    rw [hsplit]
    exact List.mem_append_right _ (List.mem_cons_self part l2)
  by_cases hp : (decide (part.length ≥ 3) && (String.mk (part.data.take 3) == "ip=")) = true
  · rw [if_pos hp] at hf
    dsimp only at hf
    by_cases hv : isValidIP (stripMask (String.mk (part.data.drop 3))) = true
    · rw [if_pos hv] at hf
      injection hf with hf
      exact ⟨part, hmem, hp, hv, hf.symm⟩
    · rw [if_neg hv] at hf
      exact absurd hf (by simp)
  · rw [if_neg hp] at hf
    exact absurd hf (by simp)

theorem extractConfigIP_some (cfg : List (String × JValue)) (ipv : String)
    (h : extractConfigIP cfg = some ipv) :
    ∃ kv ∈ cfg, isNetIPKey kv.1 = true ∧ ∃ netStr, kv.2 = JValue.str netStr ∧
      ∃ part ∈ goSplitChar netStr ',',
        (decide (part.length ≥ 3) && (String.mk (part.data.take 3) == "ip=")) = true ∧
        isValidIP (stripMask (String.mk (part.data.drop 3))) = true ∧
        ipv = stripMask (String.mk (part.data.drop 3)) := by
  unfold extractConfigIP at h
  rw [List.findSome?_eq_some_iff] at h
  obtain ⟨l1, kv, l2, hsplit, hf, _⟩ := h
  have hmem : kv ∈ cfg := by
    rw [hsplit]
    exact List.mem_append_right _ (List.mem_cons_self kv l2)
  by_cases hk : isNetIPKey kv.1 = true
  · rw [if_pos hk] at hf
    cases hv : kv.2 with
    | str netStr =>
      rw [hv] at hf
      exact ⟨kv, hmem, hk, netStr, hv, netEntryIP_some netStr ipv hf⟩
    | null => rw [hv] at hf; exact absurd hf (by simp)
    | bool b => rw [hv] at hf; exact absurd hf (by simp)
    | num q => rw [hv] at hf; exact absurd hf (by simp)
    | arr xs => rw [hv] at hf; exact absurd hf (by simp)
    | obj fs => rw [hv] at hf; exact absurd hf (by simp)
  · rw [if_neg hk] at hf
    exact absurd hf (by simp)

/-- C7: for every guest `GetDetailedVmInfo` builds, the configured-MAC set
is populated from the config regardless of IP validity (the `hwaddr` MAC
is stored), and the guest IP is either empty or the mask-stripped value of
some `ip=` part of a `netX` entry that `isValidIP` accepts; `isValidIP`
rejects the placeholders `""`, `"dhcp"`, `"manual"` and `"static"`. -/
theorem c7_config_ip_validation (statusResp configResp : Except String JValue)
    (node vtype : String) (vmid : Int) (vm' : VM) (sres cres : JValue)
    (statusData configData : List (String × JValue))
    (hs : statusResp = .ok sres) (hsd : jDataObj sres = some statusData)
    (hc : configResp = .ok cres) (hcd : jDataObj cres = some configData)
    (hok : getDetailedVmInfo statusResp configResp node vtype vmid = .ok vm') :
    vm'.configuredMACs = some (populateMACsList configData) ∧
    (vm'.ip = "" ∨ ∃ kv ∈ configData, isNetIPKey kv.1 = true ∧
      ∃ netStr, kv.2 = JValue.str netStr ∧
      ∃ part ∈ goSplitChar netStr ',',
        (decide (part.length ≥ 3) && (String.mk (part.data.take 3) == "ip=")) = true ∧
        isValidIP (stripMask (String.mk (part.data.drop 3))) = true ∧
        vm'.ip = stripMask (String.mk (part.data.drop 3))) ∧
    isValidIP "" = false ∧ isValidIP "dhcp" = false ∧
    isValidIP "manual" = false ∧ isValidIP "static" = false := by
  unfold getDetailedVmInfo at hok
  rw [hs] at hok
  dsimp only at hok
  rw [hsd] at hok
  dsimp only at hok
  rw [hc] at hok
  dsimp only at hok
  rw [hcd] at hok
  dsimp only at hok
  injection hok with hok
  subst hok
  refine ⟨rfl, ?_, by decide, by decide, by decide, by decide⟩
  show (configIPOr "" configData = "") ∨ _
  cases hip : extractConfigIP configData with
  | none =>
    left
    unfold configIPOr
    rw [hip]
  | some ipv =>
    right
    obtain ⟨kv, hmem, hk, netStr, hv, part, hpmem, hp, hval, hipeq⟩ :=
      extractConfigIP_some configData ipv hip
    refine ⟨kv, hmem, hk, netStr, hv, part, hpmem, hp, hval, ?_⟩
    show configIPOr "" configData = _
    unfold configIPOr
    rw [hip, hipeq]

/-- Witness for C7 at scenario S5: the guest keeps an empty IP (the
`ip=dhcp` placeholder is rejected) while the hwaddr MAC is stored. -/
theorem c7_witness :
    s5vm.configuredMACs = some (populateMACsList s5configData) ∧
    (s5vm.ip = "" ∨ ∃ kv ∈ s5configData, isNetIPKey kv.1 = true ∧
      ∃ netStr, kv.2 = JValue.str netStr ∧
      ∃ part ∈ goSplitChar netStr ',',
        (decide (part.length ≥ 3) && (String.mk (part.data.take 3) == "ip=")) = true ∧
        isValidIP (stripMask (String.mk (part.data.drop 3))) = true ∧
        s5vm.ip = stripMask (String.mk (part.data.drop 3))) ∧
    isValidIP "" = false ∧ isValidIP "dhcp" = false ∧
    isValidIP "manual" = false ∧ isValidIP "static" = false :=
  c7_config_ip_validation s5status s5config "pve1" "lxc" 101 s5vm
    (.obj [("data", .obj [])]) (.obj [("data", .obj s5configData)])
    [] s5configData rfl rfl rfl rfl (by rfl)

/-! ## C2: storage deduplication -/

/-- The node-lookup test of the resource sweep, phrased over the node
names. -/
theorem nodeNamed_eq_any (c : Cluster) (nm : String) :
    (nodeNames c).any (fun x => x = nm) = nodeNamed c nm := by
  unfold nodeNames nodeNamed
  induction c.nodes with
  | nil => rfl
  | cons n t ih => simp only [List.map_cons, List.any_cons, ih]

/-- `updateNodeNamed` keeps the node names when the update does. -/
theorem updateNodeNamed_nodeNames (c : Cluster) (nm : String) (f : Node → Node)
    (h : ∀ n, (f n).name = n.name) :
    nodeNames (updateNodeNamed c nm f) = nodeNames c := by
  unfold nodeNames updateNodeNamed
  rw [List.map_map]
  refine List.map_congr_left ?_
  intro n _
  show (if n.name = nm then f n else n).name = n.name
  by_cases hn : n.name = nm
  · rw [if_pos hn]; exact h n
  · rw [if_neg hn]

/-- One resource-sweep step never renames or drops a node. -/
theorem applyResource_nodeNames (c : Cluster) (item : JValue) :
    nodeNames (applyResource c item) = nodeNames c := by
  cases item
  case obj r =>
    unfold applyResource
    dsimp only
    split
    · split
      · refine updateNodeNamed_nodeNames _ _ _ ?_
        intro n
        dsimp only
        split <;> split <;> split <;> rfl
      · rfl
    · split
      · split
        · refine updateNodeNamed_nodeNames _ _ _ ?_
          intro n
          rfl
        · rfl
      · split
        · split
          · refine updateNodeNamed_nodeNames _ _ _ ?_
            intro n
            rfl
          · rfl
        · rfl
  all_goals rfl

/-- The storage-manager effect of one resource-sweep step: exactly the
`storage` records of known nodes are registered. -/
theorem applyResource_sm (c : Cluster) (item : JValue) :
    (applyResource c item).storageManager =
      (match item with
       | .obj r =>
         if getString r "type" = "storage" ∧
             (nodeNames c).any (fun x => x = getString r "node") then
           c.storageManager.AddStorage (storageOfResource r (getString r "node"))
         else c.storageManager
       | _ => c.storageManager) := by
  cases item
  case obj r =>
    unfold applyResource
    dsimp only
    by_cases ht : getString r "type" = "node"
    · have hns : ¬(getString r "type" = "storage" ∧
          ((nodeNames c).any fun x => x = getString r "node") = true) := fun hcontra =>
        absurd (ht.symm.trans hcontra.1) (by decide)
      rw [if_pos ht, if_neg hns]
      by_cases hn : nodeNamed c (getString r "node") = true
      · rw [if_pos hn]; rfl
      · rw [if_neg hn]
    · rw [if_neg ht]
      by_cases hs : getString r "type" = "storage"
      · rw [if_pos hs]
        by_cases hn : nodeNamed c (getString r "node") = true
        · have hps : getString r "type" = "storage" ∧
              ((nodeNames c).any fun x => x = getString r "node") = true :=
            ⟨hs, by rw [nodeNamed_eq_any]; exact hn⟩
          rw [if_pos hn, if_pos hps]
          rfl
        · have hns : ¬(getString r "type" = "storage" ∧
              ((nodeNames c).any fun x => x = getString r "node") = true) := fun hcontra =>
            hn (by rw [← nodeNamed_eq_any]; exact hcontra.2)
          rw [if_neg hn, if_neg hns]
      · have hns : ¬(getString r "type" = "storage" ∧
            ((nodeNames c).any fun x => x = getString r "node") = true) := fun hcontra =>
          hs hcontra.1
        rw [if_neg hs, if_neg hns]
        by_cases hv : getString r "type" = VMTypeQemu ∨ getString r "type" = VMTypeLXC
        · rw [if_pos hv]
          by_cases hn : nodeNamed c (getString r "node") = true
          · rw [if_pos hn]; rfl
          · rw [if_neg hn]
        · rw [if_neg hv]
  all_goals rfl

/-- Unfolding `storageRecsOf` over one record. -/
theorem storageRecsOf_cons (names : List String) (item : JValue) (rest : List JValue) :
    storageRecsOf names (item :: rest) =
      (match item with
       | .obj r =>
         if getString r "type" = "storage" ∧
             names.any (fun x => x = getString r "node") then
           [storageOfResource r (getString r "node")]
         else []
       | _ => []) ++ storageRecsOf names rest := by
  cases item
  case obj r =>
    unfold storageRecsOf
    rw [List.filterMap_cons]
    dsimp only
    by_cases hc : getString r "type" = "storage" ∧
        (names.any (fun x => x = getString r "node")) = true
    · rw [if_pos hc, if_pos hc]
      rfl
    · rw [if_neg hc, if_neg hc]
      rfl
  all_goals rfl

/-- The resource sweep accumulates exactly the known-node storage records
into the deduplicator. -/
theorem foldl_applyResource_sm : ∀ (items : List JValue) (c : Cluster),
    (items.foldl applyResource c).storageManager =
      (storageRecsOf (nodeNames c) items).foldl StorageManager.AddStorage c.storageManager
  | [], _ => rfl
  | item :: rest, c => by
    rw [List.foldl_cons, foldl_applyResource_sm rest (applyResource c item),
        applyResource_nodeNames, storageRecsOf_cons, applyResource_sm]
    cases item
    case obj r =>
      dsimp only
      by_cases hc : getString r "type" = "storage" ∧
          ((nodeNames c).any (fun x => x = getString r "node")) = true
      · rw [if_pos hc, if_pos hc]
        rfl
      · rw [if_neg hc, if_neg hc]
        rfl
    all_goals rfl

/-- `AddStorage` skips an already-seen shared entry. -/
theorem addStorage_skip (sm : StorageManager) (s : Storage)
    (h : s.shared ≠ 0 ∧ sm.entries.any (fun e => e.id = s.id) = true) :
    sm.AddStorage s = sm := by
  unfold StorageManager.AddStorage
  rw [if_pos h]

/-- `AddStorage` appends every other entry. -/
theorem addStorage_keep (sm : StorageManager) (s : Storage)
    (h : ¬(s.shared ≠ 0 ∧ sm.entries.any (fun e => e.id = s.id) = true)) :
    sm.AddStorage s = { entries := sm.entries ++ [s] } := by
  unfold StorageManager.AddStorage
  rw [if_neg h]

/-- Folding `AddStorage` keeps exactly the `keptStorages` selection. -/
theorem foldl_addStorage_entries : ∀ (l : List Storage) (sm : StorageManager),
    (l.foldl StorageManager.AddStorage sm).entries = sm.entries ++ keptStorages sm.entries l
  | [], sm => by simp [keptStorages]
  | s :: t, sm => by
    rw [List.foldl_cons]
    simp only [keptStorages]
    by_cases hc : s.shared ≠ 0 ∧ sm.entries.any (fun e => e.id = s.id) = true
    · rw [addStorage_skip sm s hc, foldl_addStorage_entries t sm, if_pos hc]
    · rw [addStorage_keep sm s hc, foldl_addStorage_entries t _, if_neg hc]
      show sm.entries ++ [s] ++ keptStorages (sm.entries ++ [s]) t =
        sm.entries ++ (s :: keptStorages (sm.entries ++ [s]) t)
      rw [List.append_assoc, List.singleton_append]

/-- The deduplicator passes non-shared entries through untouched. -/
theorem keptStorages_filter_nonshared : ∀ (l prev : List Storage),
    (keptStorages prev l).filter (fun x => decide (x.shared = 0)) =
      l.filter (fun x => decide (x.shared = 0))
  | [], _ => rfl
  | s :: t, prev => by
    simp only [keptStorages]
    by_cases hc : s.shared ≠ 0 ∧ prev.any (fun e => e.id = s.id) = true
    · rw [if_pos hc, keptStorages_filter_nonshared t prev, List.filter_cons_of_neg]
      simp [hc.1]
    · rw [if_neg hc, List.filter_cons, List.filter_cons,
        keptStorages_filter_nonshared t (prev ++ [s])]

/-- Every kept entry is one of the reported records. -/
theorem keptStorages_sublist : ∀ (l prev : List Storage) (x : Storage),
    x ∈ keptStorages prev l → x ∈ l
  | [], _, x, h => absurd h (List.not_mem_nil x)
  | s :: t, prev, x, h => by
    simp only [keptStorages] at h
    by_cases hc : s.shared ≠ 0 ∧ prev.any (fun e => e.id = s.id) = true
    · rw [if_pos hc] at h
      exact List.mem_cons_of_mem s (keptStorages_sublist t prev x h)
    · rw [if_neg hc] at h
      rcases List.mem_cons.1 h with h1 | h2
      · exact h1 ▸ List.mem_cons_self s t
      · exact List.mem_cons_of_mem s (keptStorages_sublist t (prev ++ [s]) x h2)

/-- The shared entries the deduplicator keeps: their ids are distinct, and
they are exactly the shared ids of the stream not already present, as long
as shared and non-shared records never collide on an id. -/
theorem keptStorages_shared_char : ∀ (l prev : List Storage),
    (∀ a ∈ l, a.shared ≠ 0 → ∀ b, (b ∈ prev ∨ b ∈ l) → b.shared = 0 → a.id ≠ b.id) →
    (((keptStorages prev l).filter (fun x => decide (x.shared ≠ 0))).map Storage.id).Nodup ∧
    (∀ i, i ∈ ((keptStorages prev l).filter (fun x => decide (x.shared ≠ 0))).map Storage.id ↔
      (i ∈ (sharedOf l).map Storage.id ∧ ∀ p ∈ prev, p.id ≠ i))
  | [], prev, _ => by
    constructor
    · simp [keptStorages]
    · intro i
      simp [keptStorages, sharedOf]
  | s :: t, prev, hdisj => by
    have hmemQ : ∀ b, (b ∈ prev ++ [s] ∨ b ∈ t) → (b ∈ prev ∨ b ∈ s :: t) := by
      intro b hb
      rcases hb with hb | hb
      · rcases List.mem_append.1 hb with hb | hb
        · exact Or.inl hb
        · exact Or.inr (List.mem_singleton.1 hb ▸ List.mem_cons_self s t)
      · exact Or.inr (List.mem_cons_of_mem s hb)
    have hdisjT : ∀ a ∈ t, a.shared ≠ 0 →
        ∀ b, (b ∈ prev ∨ b ∈ t) → b.shared = 0 → a.id ≠ b.id :=
      fun a ha hsh b hb => hdisj a (List.mem_cons_of_mem s ha) hsh b
        (hb.imp id (List.mem_cons_of_mem s))
    have hdisjS : ∀ a ∈ t, a.shared ≠ 0 →
        ∀ b, (b ∈ prev ++ [s] ∨ b ∈ t) → b.shared = 0 → a.id ≠ b.id :=
      fun a ha hsh b hb => hdisj a (List.mem_cons_of_mem s ha) hsh b (hmemQ b hb)
    simp only [keptStorages]
    by_cases hc : s.shared ≠ 0 ∧ prev.any (fun e => e.id = s.id) = true
    · rw [if_pos hc]
      obtain ⟨ihnd, ihch⟩ := keptStorages_shared_char t prev hdisjT
      refine ⟨ihnd, fun i => ?_⟩
      rw [ihch i]
      have hshs : sharedOf (s :: t) = s :: sharedOf t := by
        simp [sharedOf, List.filter_cons, hc.1]
      rw [hshs, List.map_cons, List.mem_cons]
      constructor
      · rintro ⟨hi, hp⟩
        exact ⟨Or.inr hi, hp⟩
      · rintro ⟨hi | hi, hp⟩
        · obtain ⟨e, he, hid⟩ := List.any_eq_true.1 hc.2
          exact absurd ((of_decide_eq_true hid).trans hi.symm) (hp e he)
        · exact ⟨hi, hp⟩
    · rw [if_neg hc]
      obtain ⟨ihnd, ihch⟩ := keptStorages_shared_char t (prev ++ [s]) hdisjS
      by_cases hs0 : s.shared = 0
      · have hfil : (s :: keptStorages (prev ++ [s]) t).filter
            (fun x => decide (x.shared ≠ 0)) =
            (keptStorages (prev ++ [s]) t).filter (fun x => decide (x.shared ≠ 0)) := by
          rw [List.filter_cons_of_neg]
          simp [hs0]
        rw [hfil]
        refine ⟨ihnd, fun i => ?_⟩
        rw [ihch i]
        have hshs : sharedOf (s :: t) = sharedOf t := by
          simp [sharedOf, List.filter_cons, hs0]
        rw [hshs]
        constructor
        · rintro ⟨hi, hp⟩
          exact ⟨hi, fun p hpm => hp p (List.mem_append_left _ hpm)⟩
        · rintro ⟨hi, hp⟩
          refine ⟨hi, fun p hpm => ?_⟩
          rcases List.mem_append.1 hpm with hm | hm
          · exact hp p hm
          · obtain ⟨w, hw, hwid⟩ := List.mem_map.1 hi
            have hwf : w ∈ t ∧ ¬w.shared = 0 := by simpa [sharedOf] using hw
            have hne := hdisj w (List.mem_cons_of_mem s hwf.1)
              hwf.2 s (Or.inr (List.mem_cons_self s t)) hs0
            rw [List.mem_singleton.1 hm, ← hwid]
            exact fun hcontra => hne hcontra.symm
      · have hfil : (s :: keptStorages (prev ++ [s]) t).filter
            (fun x => decide (x.shared ≠ 0)) =
            s :: (keptStorages (prev ++ [s]) t).filter (fun x => decide (x.shared ≠ 0)) := by
          rw [List.filter_cons_of_pos]
          simp [hs0]
        rw [hfil, List.map_cons]
        have hnotprev : ∀ p ∈ prev, p.id ≠ s.id := by
          intro p hp hpe
          exact hc ⟨hs0, List.any_eq_true.2 ⟨p, hp, decide_eq_true hpe⟩⟩
        have hshs : sharedOf (s :: t) = s :: sharedOf t := by
          simp [sharedOf, List.filter_cons, hs0]
        constructor
        · refine List.nodup_cons.2 ⟨fun hmem => ?_, ihnd⟩
          obtain ⟨_, hpall⟩ := (ihch s.id).1 hmem
          exact hpall s (List.mem_append_right prev (List.mem_singleton.2 rfl)) rfl
        · intro i
          rw [List.mem_cons, ihch i, hshs, List.map_cons, List.mem_cons]
          constructor
          · rintro (rfl | ⟨hi, hp⟩)
            · exact ⟨Or.inl rfl, hnotprev⟩
            · exact ⟨Or.inr hi, fun p hpm => hp p (List.mem_append_left _ hpm)⟩
          · rintro ⟨hi | hi, hp⟩
            · exact Or.inl hi
            · by_cases hie : i = s.id
              · exact Or.inl hie
              · refine Or.inr ⟨hi, fun p hpm => ?_⟩
                rcases List.mem_append.1 hpm with hm | hm
                · exact hp p hm
                · rw [List.mem_singleton.1 hm]
                  exact fun hcontra => hie hcontra.symm

/-- Under consistent reporting, every kept shared entry carries the
capacity and usage the claim assigns to its id. -/
theorem kept_value_agree (l : List Storage)
    (hcons : ∀ a ∈ l, ∀ b ∈ l, a.shared ≠ 0 → b.shared ≠ 0 → a.id = b.id →
      a.maxDisk = b.maxDisk ∧ a.disk = b.disk)
    (x : Storage) (hx : x ∈ (keptStorages [] l).filter (fun e => decide (e.shared ≠ 0))) :
    x.maxDisk = sharedCapOf l x.id ∧ x.disk = sharedUseOf l x.id := by
  have hm := List.mem_filter.1 hx
  have hxl : x ∈ l := keptStorages_sublist l [] x hm.1
  have hsh : x.shared ≠ 0 := of_decide_eq_true hm.2
  have hself : x ∈ sharedOf l := by
    simp only [sharedOf]
    exact List.mem_filter.2 ⟨hxl, hm.2⟩
  cases hfind : (sharedOf l).find? (fun e => e.id = x.id) with
  | none =>
    exact absurd (decide_eq_true rfl) (List.find?_eq_none.1 hfind x hself)
  | some w =>
    have hpw := List.find?_some hfind
    have hid : w.id = x.id := of_decide_eq_true hpw
    have hwmem : w ∈ l ∧ w.shared ≠ 0 := by
      have := List.mem_of_find?_eq_some hfind
      simp only [sharedOf] at this
      have h2 := List.mem_filter.1 this
      exact ⟨h2.1, of_decide_eq_true h2.2⟩
    have hagree := hcons x hxl w hwmem.1 hsh hwmem.2 hid.symm
    unfold sharedCapOf sharedUseOf
    rw [hfind]
    exact hagree

/-- Splitting a sum over the shared flag. -/
theorem sum_map_filter_split (l : List Storage) (f : Storage → Int) :
    ((l.filter (fun x => decide (x.shared ≠ 0))).map f).sum +
      ((l.filter (fun x => decide (x.shared = 0))).map f).sum = (l.map f).sum := by
  induction l with
  | nil => rfl
  | cons s t ih =>
    simp only [List.filter_cons]
    by_cases hs : s.shared = 0
    · rw [if_neg (by simp [hs]), if_pos (by simp [hs])]
      simp only [List.map_cons, List.sum_cons]
      omega
    · rw [if_pos (by simp [hs]), if_neg (by simp [hs])]
      simp only [List.map_cons, List.sum_cons]
      omega

/-- A sum over entries with distinct ids, through a per-id value. -/
theorem sum_map_eq_finset_sum (K : List Storage) (g : String → Int) (f : Storage → Int)
    (hnd : (K.map Storage.id).Nodup) (hf : ∀ x ∈ K, f x = g x.id) :
    (K.map f).sum = ((K.map Storage.id).toFinset).sum g := by
  rw [List.sum_toFinset _ hnd, List.map_map]
  congr 1
  refine List.map_congr_left ?_
  intro x hx
  exact hf x hx

/-- Two lists with the same members have the same `toFinset`. -/
theorem toFinset_eq_of_mem_iff (l l' : List String) (h : ∀ i, i ∈ l ↔ i ∈ l') :
    l.toFinset = l'.toFinset := by
  apply Finset.ext
  intro a
  rw [List.mem_toFinset, List.mem_toFinset]
  exact h a

/-- The deduplicated sums agree with the claimed totals. -/
theorem kept_sums (l : List Storage)
    (hdisj : ∀ a ∈ l, a.shared ≠ 0 → ∀ b ∈ l, b.shared = 0 → a.id ≠ b.id)
    (hcons : ∀ a ∈ l, ∀ b ∈ l, a.shared ≠ 0 → b.shared ≠ 0 → a.id = b.id →
      a.maxDisk = b.maxDisk ∧ a.disk = b.disk) :
    ((keptStorages [] l).map Storage.maxDisk).sum = specStorageTotal l ∧
    ((keptStorages [] l).map Storage.disk).sum = specStorageUsed l := by
  have hdisj0 : ∀ a ∈ l, a.shared ≠ 0 →
      ∀ b, (b ∈ ([] : List Storage) ∨ b ∈ l) → b.shared = 0 → a.id ≠ b.id := by
    intro a ha hsh b hb hb0
    rcases hb with hb | hb
    · exact absurd hb (List.not_mem_nil b)
    · exact hdisj a ha hsh b hb hb0
  obtain ⟨hnd, hch⟩ := keptStorages_shared_char l [] hdisj0
  have hfinset : ((((keptStorages [] l).filter
      (fun x => decide (x.shared ≠ 0))).map Storage.id).toFinset) =
      (((sharedOf l).map Storage.id).toFinset) := by
    apply toFinset_eq_of_mem_iff
    intro i
    rw [hch i]
    exact ⟨fun h => h.1, fun h => ⟨h, fun p hp => absurd hp (List.not_mem_nil p)⟩⟩
  constructor
  · rw [← sum_map_filter_split (keptStorages [] l) Storage.maxDisk,
      keptStorages_filter_nonshared l [],
      sum_map_eq_finset_sum _ (sharedCapOf l) _ hnd
        (fun x hx => (kept_value_agree l hcons x hx).1),
      hfinset]
    rfl
  · rw [← sum_map_filter_split (keptStorages [] l) Storage.disk,
      keptStorages_filter_nonshared l [],
      sum_map_eq_finset_sum _ (sharedUseOf l) _ hnd
        (fun x hx => (kept_value_agree l hcons x hx).2),
      hfinset]
    rfl

/-- `calculateClusterTotals` takes the storage totals straight from the
deduplicator. -/
theorem calcTotals_storageFields (c : Cluster) :
    (calculateClusterTotals c).storageTotal = c.storageManager.GetTotalCapacity ∧
    (calculateClusterTotals c).storageUsed = c.storageManager.GetTotalUsage := by
  unfold calculateClusterTotals
  dsimp only
  split
  · exact ⟨rfl, rfl⟩
  · exact ⟨rfl, rfl⟩

/-- **C2.** For every resource sweep starting from an empty deduplicator,
provided a shared and a non-shared record never collide on an id and all
reports of one shared id agree on its figures, the snapshot's
`StorageTotal` equals the sum of `maxdisk` taken once per distinct shared
storage id plus once per non-shared (node, storage) record, and
`StorageUsed` is the analogous sum of `disk`; a shared storage reported by
several nodes is counted exactly once. -/
theorem c2_storage_dedup_totals (resp : JValue) (items : List JValue)
    (cluster c' : Cluster)
    (hsm : cluster.storageManager = NewStorageManager)
    (harr : jDataArr resp = some items)
    (hproc : processClusterResources (.ok resp) cluster = .ok c')
    (hdisj : ∀ a ∈ storageRecsOf (nodeNames cluster) items, a.shared ≠ 0 →
      ∀ b ∈ storageRecsOf (nodeNames cluster) items, b.shared = 0 → a.id ≠ b.id)
    (hcons : ∀ a ∈ storageRecsOf (nodeNames cluster) items,
      ∀ b ∈ storageRecsOf (nodeNames cluster) items,
      a.shared ≠ 0 → b.shared ≠ 0 → a.id = b.id →
      a.maxDisk = b.maxDisk ∧ a.disk = b.disk) :
    (calculateClusterTotals c').storageTotal =
      specStorageTotal (storageRecsOf (nodeNames cluster) items) ∧
    (calculateClusterTotals c').storageUsed =
      specStorageUsed (storageRecsOf (nodeNames cluster) items) := by
  have hc' : c' = items.foldl applyResource cluster := by
    unfold processClusterResources at hproc
    dsimp only at hproc
    rw [harr] at hproc
    exact (Except.ok.inj hproc).symm
  subst hc'
  obtain ⟨ht, hu⟩ := calcTotals_storageFields (items.foldl applyResource cluster)
  rw [ht, hu]
  unfold StorageManager.GetTotalCapacity StorageManager.GetTotalUsage
  rw [foldl_applyResource_sm items cluster, hsm, foldl_addStorage_entries]
  have hne : NewStorageManager.entries = ([] : List Storage) := rfl
  rw [hne, List.nil_append]
  exact kept_sums _ hdisj hcons

/-- Witness for C2 at scenario S2: the shared `nas` reported by both
nodes counts once, the two local stores count per node, giving the
expected 2 TB total and 666 bytes used. -/
theorem c2_witness :
    ((calculateClusterTotals s2Folded).storageTotal =
        specStorageTotal (storageRecsOf (nodeNames s2Cluster) s2Items) ∧
      (calculateClusterTotals s2Folded).storageUsed =
        specStorageUsed (storageRecsOf (nodeNames s2Cluster) s2Items)) ∧
    specStorageTotal (storageRecsOf (nodeNames s2Cluster) s2Items) = 2000000000000 ∧
    specStorageUsed (storageRecsOf (nodeNames s2Cluster) s2Items) = 666 :=
  ⟨c2_storage_dedup_totals s2Resources s2Items s2Cluster s2Folded rfl rfl rfl
      (by decide) (by decide),
    by decide, by decide⟩
